import Mathlib

/-!
# 2gis-bus-routes-parser: a verification development of `src/index.js`

A shallow embedding of the `WorkingRouteCollector` class:

* JavaScript strings are lists of characters (`JsString`);
* the regular expressions of the source are written out as the leftmost-match
  scanners they denote;
* the response handler of `setupNetworkInterception` is a step function on an
  explicit collector state; the effect of `saveRouteToFile` is recorded in the
  state as a list of invocations with the artifacts written;
* `handlePagination` is a function of the visited set, the current URL and the
  list of links found in the DOM; the `while` loop of `clickOnRoutes` is a
  fuelled iteration over a finite link graph.

Modelling conventions: JSON payloads are typed records whose optional fields
are `Option`s (absent, `null` and `undefined` are all `none`); the built-ins
`Number` and `parseFloat` are parameters (`JsNumeric`); page numbers and
schedule periods are natural numbers; the local time zone is a fixed offset;
`path.join` is the POSIX one, on paths given as lists of segments; writes
to the file system succeed. The response handler is asynchronous: its detail
branch reads the pending-schedule map, awaits `saveRouteToFile`, and only
then logs and deletes. `onResponse` is an invocation that no other
invocation interleaves with; `detailSave` and `detailFinish` are the two
phases of the detail branch around the await, between which other
invocations may run.
-/

namespace RouteCollector

/-! ## JavaScript strings -/

/-- A JavaScript string, as its sequence of characters. -/
abbrev JsString := List Char

/-- The method `String.prototype.includes`. -/
def includes (s pat : JsString) : Bool :=
  s.tails.any (fun t => pat.isPrefixOf t)

/-- The method `String.prototype.startsWith`. -/
def startsWith (s pat : JsString) : Bool :=
  pat.isPrefixOf s

/-- The class `\d` of a regular expression without the `u` flag. -/
def isDigit (c : Char) : Bool :=
  decide ('0'.toNat ≤ c.toNat ∧ c.toNat ≤ '9'.toNat)

/-- The characters the dot of a regular expression does not match. -/
def isLineTerminator (c : Char) : Bool :=
  c.toNat = 0x0A || c.toNat = 0x0D || c.toNat = 0x2028 || c.toNat = 0x2029

/-- The characters removed by `String.prototype.trim`: the `WhiteSpace`
production (tab, vertical tab, form feed, the byte order mark and the
space separators of Unicode) and the line terminators. -/
def isJsWhitespace (c : Char) : Bool :=
  c.toNat = 0x09 || c.toNat = 0x0B || c.toNat = 0x0C || c.toNat = 0x20 ||
  c.toNat = 0xA0 || c.toNat = 0x1680 ||
  decide (0x2000 ≤ c.toNat ∧ c.toNat ≤ 0x200A) ||
  c.toNat = 0x202F || c.toNat = 0x205F || c.toNat = 0x3000 || c.toNat = 0xFEFF ||
  isLineTerminator c

/-- The method `String.prototype.trim`. -/
def trim (s : JsString) : JsString :=
  ((s.dropWhile isJsWhitespace).reverse.dropWhile isJsWhitespace).reverse

/-- The method `String.prototype.split` with a one-character separator: the
pieces between the occurrences of `sep`; never the empty array. -/
def splitChar (sep : Char) : JsString → List JsString
  | [] => [[]]
  | c :: cs =>
    if c = sep then [] :: splitChar sep cs
    else
      match splitChar sep cs with
      | [] => [[c]]
      | p :: ps => (c :: p) :: ps

/-- The value of a run of decimal digits, as `parseInt(_, 10)` reads it. -/
def digitsToNat (ds : JsString) : Nat :=
  ds.foldl (fun acc c => 10 * acc + (c.toNat - '0'.toNat)) 0

/-- The method `String.prototype.padStart(2, "0")`. -/
def padStart2 (s : JsString) : JsString :=
  if s.length < 2 then List.replicate (2 - s.length) '0' ++ s else s

/-- A template literal renders an absent field as `undefined`. -/
def render (o : Option JsString) : JsString :=
  o.getD "undefined".toList

/-- Truthiness of a value that is a string or absent. -/
def truthy : Option JsString → Bool
  | some (_ :: _) => true
  | _ => false

/-- The operator `||` on values that are strings or absent. -/
def jsOr (a b : Option JsString) : Option JsString :=
  if truthy a then a else b

/-! ## Geometry (`parseWKT`, `convert2GisToGeoJSON`) -/

/-- The numeric built-ins of the host, taken as parameters: `Number` and
`parseFloat`, from strings to the number type `ν`. -/
structure JsNumeric (ν : Type) where
  Number : JsString → ν
  parseFloat : JsString → ν

/-- The prefix of a string before its last closing parenthesis, if it has one. -/
def beforeLastParen : JsString → Option JsString
  | [] => none
  | c :: cs =>
    match beforeLastParen cs with
    | some p => some (c :: p)
    | none => if c = ')' then some [] else none

/-- The capture group of the leftmost match of `/LINESTRING\((.+)\)/`: after
the leftmost `LINESTRING(` that admits a match, the greedy `.+` runs over
characters that are not line terminators and gives back to the last `)`. -/
def matchLineString : JsString → Option JsString
  | [] => none
  | c :: cs =>
    if "LINESTRING(".toList.isPrefixOf (c :: cs) then
      match beforeLastParen
          (((c :: cs).drop 11).takeWhile (fun x => !isLineTerminator x)) with
      | some (d :: ds) => some (d :: ds)
      | _ => matchLineString cs
    else matchLineString cs

/-- A coordinate pair `[lon, lat]`; `none` is `undefined`. -/
abbrev Coord (ν : Type) := Option ν × Option ν

/-- The method `parseWKT`. The `try` block cannot throw, so the `catch`
branch is never taken. -/
def parseWKT {ν : Type} (N : JsNumeric ν) (wkt : JsString) : List (Coord ν) :=
  match matchLineString wkt with
  | none => []
  | some body =>
    (splitChar ',' body).map fun pair =>
      let nums := (splitChar ' ' (trim pair)).map N.Number
      (nums.head?, nums.tail.head?)

/-- The capture groups of the leftmost match of `/POINT\(([^ ]+) ([^)]+)\)/`. -/
def matchPoint : JsString → Option (JsString × JsString)
  | [] => none
  | c :: cs =>
    if "POINT(".toList.isPrefixOf (c :: cs) then
      let rest := (c :: cs).drop 6
      match rest.takeWhile (fun x => x ≠ ' '), rest.dropWhile (fun x => x ≠ ' ') with
      | g :: gs, _ :: rest2 =>
        match rest2.takeWhile (fun x => x ≠ ')'), rest2.dropWhile (fun x => x ≠ ')') with
        | h :: hs, _ :: _ => some (g :: gs, h :: hs)
        | _, _ => matchPoint cs
      | _, _ => matchPoint cs
    else matchPoint cs

/-- A stop of a direction (`direction.platforms[i]`); `centroid` is
`platform.geometry?.centroid`. -/
structure Platform where
  name : Option JsString
  station_id : Option JsString
  centroid : Option JsString
  deriving DecidableEq, Repr

/-- A geometry segment of a direction (`direction.geometry.immersion[j]`). -/
structure Immersion where
  selection : Option JsString
  deriving DecidableEq, Repr

/-- A direction of a route; `immersion` is `direction.geometry?.immersion`. -/
structure Direction where
  type : Option JsString
  platforms : Option (List Platform)
  immersion : Option (List Immersion)
  deriving DecidableEq, Repr

/-- A key handed to the `Map` of pending schedules: a string or a number. -/
inductive JsKey where
  | str (s : JsString)
  | num (n : Int)
  deriving DecidableEq, Repr

/-- An item of `result.items` in a `byid` payload. -/
structure RouteItem where
  id : JsKey
  type : Option JsString
  name : Option JsString
  from_name : Option JsString
  to_name : Option JsString
  directions : Option (List Direction)
  deriving DecidableEq, Repr

/-- A parsed `byid` payload; `items` is `result?.items`. -/
structure ByidData where
  items : Option (List RouteItem)
  deriving DecidableEq, Repr

/-- A GeoJSON feature as `convert2GisToGeoJSON` builds it: a stop (point
geometry, properties `name`, `station_id`, `direction`, type `stop`) or a
route line (line geometry, properties `name`, `direction`, type `route`). -/
inductive Feature (ν : Type) where
  | stop (lon lat : ν) (name station_id : Option JsString) (direction : JsString)
  | route (coordinates : List (Coord ν)) (name : JsString) (direction : JsString)
  deriving DecidableEq, Repr

/-- The label of a direction. -/
def directionName (direction : Direction) : JsString :=
  if direction.type = some "forward".toList then "Туда".toList else "Обратно".toList

/-- The body of `direction.platforms?.forEach`: the features one platform adds. -/
def platformFeatures {ν : Type} (N : JsNumeric ν) (direction : Direction)
    (platform : Platform) : List (Feature ν) :=
  match platform.centroid with
  | some centroid =>
    if truthy (some centroid) && startsWith centroid "POINT".toList then
      match matchPoint centroid with
      | some (g1, g2) =>
        [Feature.stop (N.parseFloat g1) (N.parseFloat g2) platform.name platform.station_id
          (directionName direction)]
      | none => []
    else []
  | none => []

/-- The body of `direction.geometry.immersion.forEach`: the features one
segment adds. -/
def immersionFeatures {ν : Type} (N : JsNumeric ν) (route : RouteItem) (direction : Direction)
    (imm : Immersion) : List (Feature ν) :=
  match imm.selection with
  | some selection =>
    if truthy (some selection) && startsWith selection "LINESTRING".toList then
      let coords := parseWKT N selection
      if coords.length > 0 then
        [Feature.route coords (render route.name ++ " — маршрут".toList) (directionName direction)]
      else []
    else []
  | none => []

/-- The body of `route.directions?.forEach`: the features one direction adds. -/
def directionFeatures {ν : Type} (N : JsNumeric ν) (route : RouteItem)
    (direction : Direction) : List (Feature ν) :=
  ((direction.platforms.getD []).flatMap (platformFeatures N direction)) ++
  ((direction.immersion.getD []).flatMap (immersionFeatures N route direction))

/-- The method `convert2GisToGeoJSON`: the `features` of the collection it
returns; `none` when it throws (`items` is an empty array, so that `route`
is `undefined`). -/
def convert2GisToGeoJSON {ν : Type} (N : JsNumeric ν) (apiResponse : ByidData) :
    Option (List (Feature ν)) :=
  match apiResponse.items with
  | none => some []
  | some [] => none
  | some (route :: _) => some ((route.directions.getD []).flatMap (directionFeatures N route))

/-! ## Persistence (`getFileName`, `saveRouteToFile`) -/

/-- The expression `routeItem.name || "unknown"`. -/
def routeName (routeItem : RouteItem) : JsString :=
  if truthy routeItem.name then render routeItem.name else "unknown".toList

/-- The method `getFileName`. -/
def getFileName (routeItem : RouteItem) : JsString :=
  routeName routeItem ++ ".json".toList

/-- The method `String.prototype.replace` with string arguments: the first
occurrence of `pat` is replaced by `rep`. -/
def replaceFirst (pat rep : JsString) : JsString → JsString
  | [] => if pat = [] then rep else []
  | c :: cs =>
    if pat.isPrefixOf (c :: cs) then rep ++ (c :: cs).drop pat.length
    else c :: replaceFirst pat rep cs

/-- An absolute POSIX path, as its segments below the root. -/
abbrev Path := List JsString

/-- One segment of `path.join` (POSIX): empty and `.` segments vanish, `..`
drops the last segment (the root is its own parent). -/
def pathStep (base : Path) (seg : JsString) : Path :=
  if seg = [] ∨ seg = ".".toList then base
  else if seg = "..".toList then base.dropLast
  else base ++ [seg]

/-- The function `path.join(base, part)` (POSIX) for an absolute, normalised `base`. -/
def pathJoin (base : Path) (part : JsString) : Path :=
  (splitChar '/' part).foldl pathStep base

/-- The directory `path.join(__dirname, "routes", this.options.city)`. -/
def routesDir (dirname : Path) (city : JsString) : Path :=
  pathJoin (pathJoin dirname "routes".toList) city

/-- What the DOM scrape of `getRouteAdditionalInfo` reads from the page
(`info.interval`, `info.hours`); both `none` when the scrape fails. -/
structure PageInfo where
  interval : Option JsString
  hours : Option JsString
  deriving DecidableEq, Repr

/-- The object `additional_info`. -/
structure AdditionalInfo where
  name : Option JsString
  route : Option JsString
  interval : Option JsString
  hours : Option JsString
  deriving DecidableEq, Repr

/-- The method `getRouteAdditionalInfo`; the three return sites differ only
in `interval` and `hours`, which are `null` off the main path. -/
def getRouteAdditionalInfo (routeItem : RouteItem) (info : PageInfo) : AdditionalInfo :=
  { name := some (render routeItem.name ++ " - ".toList ++ render routeItem.from_name ++
      " → ".toList ++ render routeItem.to_name)
    route := some (render routeItem.from_name ++ " → ".toList ++ render routeItem.to_name)
    interval := info.interval
    hours := info.hours }

/-- A buffered schedule fragment `{ interval, hours }`. -/
structure ScheduleFragment where
  interval : JsString
  hours : JsString
  deriving DecidableEq, Repr

/-- One invocation of `saveRouteToFile` with the two artifacts it writes:
the enriched document at `jsonPath` and the feature collection at
`geoJsonPath` (`geoJson` is `none` when the conversion throws, in which case
the second file is not written). File-system failures are not modelled. -/
structure SaveCall (ν : Type) where
  routeItem : RouteItem
  jsonPath : Path
  fullByidData : ByidData
  additional_info : AdditionalInfo
  geoJsonPath : Path
  geoJson : Option (List (Feature ν))

/-- The configuration a collector runs with: the numeric built-ins, the
local time zone as an offset in seconds, `__dirname` and `options.city`. -/
structure Env (ν : Type) where
  num : JsNumeric ν
  tz : Int
  dirname : Path
  city : JsString

/-- The method `saveRouteToFile`; `scheduleData` is `none` for the default `{}`. -/
def saveRouteToFile {ν : Type} (env : Env ν) (routeItem : RouteItem) (fullByidData : ByidData)
    (scheduleData : Option ScheduleFragment) (info : PageInfo) : SaveCall ν :=
  let dir := routesDir env.dirname env.city
  let fileName := getFileName routeItem
  let additionalInfo := getRouteAdditionalInfo routeItem info
  { routeItem := routeItem
    jsonPath := pathJoin dir fileName
    fullByidData := fullByidData
    additional_info :=
      { additionalInfo with
        interval := jsOr (jsOr (scheduleData.map (·.interval)) additionalInfo.interval) none
        hours := jsOr (jsOr (scheduleData.map (·.hours)) additionalInfo.hours) none }
    geoJsonPath := pathJoin dir (replaceFirst ".json".toList ".geojson".toList fileName)
    geoJson := convert2GisToGeoJSON env.num fullByidData }

/-! ## The response handler of `setupNetworkInterception` -/

/-- The object `schedule.schedule.work_hours` (epoch seconds). -/
structure WorkHours where
  start_time : Int
  finish_time : Int
  deriving DecidableEq, Repr

/-- The object `schedule.schedule`. -/
structure ScheduleBody where
  type : Option JsString
  period : Option Nat
  work_hours : Option WorkHours
  deriving DecidableEq, Repr

/-- An element of `response.schedules`. -/
structure ScheduleEntry where
  schedule : Option ScheduleBody
  deriving DecidableEq, Repr

/-- An element of `scheduleData.responses`. -/
structure ScheduleResponse where
  status : Option JsString
  schedules : Option (List ScheduleEntry)
  deriving DecidableEq, Repr

/-- A parsed schedule payload; `responses` is `none` unless it is an array. -/
structure ScheduleData where
  responses : Option (List ScheduleResponse)
  deriving DecidableEq, Repr

/-- The capture group of the leftmost match of `/routes\/(\d+)/`. -/
def matchRouteId : JsString → Option JsString
  | [] => none
  | c :: cs =>
    if "routes/".toList.isPrefixOf (c :: cs) then
      match ((c :: cs).drop 7).takeWhile isDigit with
      | d :: ds => some (d :: ds)
      | [] => matchRouteId cs
    else matchRouteId cs

/-- Hour and minute of the local wall clock at an epoch second, each
rendered with `toString().padStart(2, "0")`. -/
def clockText (tz t : Int) : JsString :=
  padStart2 (toString (((t + tz) % 86400) / 3600).toNat).toList ++ ":".toList ++
  padStart2 (toString (((t + tz) % 3600) / 60).toNat).toList

/-- The second `filter` of the handler: an interval trip with a truthy
period and a work-hours window. -/
def isIntervalTrip (entry : ScheduleEntry) : Bool :=
  match entry.schedule with
  | some sch =>
    decide (sch.type = some "interval_trip".toList) &&
    (match sch.period with
     | some p => decide (p ≠ 0)
     | none => false) &&
    sch.work_hours.isSome
  | none => false

/-- The schedule branch of the handler up to `currentRouteSchedule.set`: the
fragment `{ interval, hours }` computed from the payload, if any. -/
def scheduleFragment (tz : Int) (scheduleData : ScheduleData) : Option ScheduleFragment :=
  match scheduleData.responses with
  | none => none
  | some responses =>
    let schedules :=
      ((responses.filter fun response =>
          decide (response.status = some "ok".toList) &&
          decide ((response.schedules.getD []).length > 0)).filterMap
        fun response => (response.schedules.getD []).head?).filter isIntervalTrip
    match schedules.head? with
    | some entry =>
      match entry.schedule with
      | some firstSchedule =>
        match firstSchedule.work_hours, firstSchedule.period with
        | some workHours, some period =>
          some
            { interval := "каждые ".toList ++ (toString period).toList ++ " минут".toList
              hours := clockText tz workHours.start_time ++ "–".toList ++
                clockText tz workHours.finish_time }
        | _, _ => none
      | none => none
    | none => none

/-- The `Map` of pending schedule fragments, keyed by the strings taken from
schedule URLs. -/
abbrev ScheduleMap := List (JsString × ScheduleFragment)

/-- The method `Map.prototype.get`; a number never equals a string key. -/
def mapGet (m : ScheduleMap) : JsKey → Option ScheduleFragment
  | JsKey.str s => m.lookup s
  | JsKey.num _ => none

/-- The method `Map.prototype.delete`. -/
def mapDelete (m : ScheduleMap) : JsKey → ScheduleMap
  | JsKey.str s => m.filter (fun e => e.1 ≠ s)
  | JsKey.num _ => m

/-- The method `Map.prototype.set` with a string key: the value of an
existing key is replaced in place, a new key is appended. -/
def mapSet : ScheduleMap → JsString → ScheduleFragment → ScheduleMap
  | [], k, v => [(k, v)]
  | (a, b) :: es, k, v => if a = k then (k, v) :: es else (a, b) :: mapSet es k v

/-- What `JSON.parse(responseBody)` gives the handler. -/
inductive Body where
  | unparsable
  | byid (byidData : ByidData)
  | schedule (scheduleData : ScheduleData)
  deriving DecidableEq, Repr

/-- A response event: the response itself, what the page shows while it is
handled, and the clock. -/
structure Response where
  url : JsString
  status : Nat
  body : Body
  info : PageInfo
  now : JsString
  deriving DecidableEq, Repr

/-- An entry of `this.routeDetails`. -/
structure RouteDetail where
  id : JsKey
  url : JsString
  status : Nat
  routeData : RouteItem
  fileName : JsString
  timestamp : JsString
  deriving DecidableEq, Repr

/-- The mutable state the handler works on: the pending-schedule map, the
`routeDetails` log and the invocations of `saveRouteToFile` so far. -/
structure Collector (ν : Type) where
  currentRouteSchedule : ScheduleMap
  routeDetails : List RouteDetail
  saved : List (SaveCall ν)

/-- A fresh collector (the constructor). -/
def Collector.init (ν : Type) : Collector ν :=
  { currentRouteSchedule := [], routeDetails := [], saved := [] }

/-- The `response` handler registered by `setupNetworkInterception`, as one
invocation that runs from its first statement to its last without another
invocation in between. In the detail branch the source awaits
`saveRouteToFile` between `Map.get` and the `push` and `delete`; the phases
before and after that await are `detailSave` and `detailFinish`. -/
def onResponse {ν : Type} (env : Env ν) (c : Collector ν) (response : Response) : Collector ν :=
  if includes response.url "byid".toList && decide (response.status = 200) then
    match response.body with
    | Body.byid byidData =>
      match byidData.items with
      | some (routeItem :: _) =>
        if routeItem.type = some "route".toList then
          let scheduleData := mapGet c.currentRouteSchedule routeItem.id
          { currentRouteSchedule := mapDelete c.currentRouteSchedule routeItem.id
            routeDetails := c.routeDetails ++
              [{ id := routeItem.id, url := response.url, status := response.status,
                 routeData := routeItem, fileName := getFileName routeItem,
                 timestamp := response.now }]
            saved := c.saved ++
              [saveRouteToFile env routeItem byidData scheduleData response.info] }
        else c
      | _ => c
    | _ => c
  else if includes response.url "routing.api.2gis.com/ctx/search_schedule".toList &&
      decide (response.status = 200) then
    match response.body with
    | Body.schedule scheduleData =>
      match scheduleData.responses, matchRouteId response.url with
      | some _, some routeId =>
        match scheduleFragment env.tz scheduleData with
        | some fragment =>
          { c with currentRouteSchedule := mapSet c.currentRouteSchedule routeId fragment }
        | none => c
      | _, _ => c
    | _ => c
  else c

/-- The handler run over a sequence of response events, in order. -/
def run {ν : Type} (env : Env ν) (c : Collector ν) (events : List Response) : Collector ν :=
  events.foldl (onResponse env) c

/-! ## Pagination (`handlePagination`, the loop of `clickOnRoutes`) -/

/-- A regular-expression literal matched at the head of a string under the
`i` flag; `pat` is in lower case. -/
def isPrefixCI (pat s : JsString) : Bool :=
  decide ((s.take pat.length).map Char.toLower = pat)

/-- The capture group of the leftmost match of `/[?&]page=(\d+)/i`. -/
def matchQueryPage : JsString → Option JsString
  | [] => none
  | c :: cs =>
    if (c = '?' ∨ c = '&') ∧ isPrefixCI "page=".toList cs = true then
      match (cs.drop 5).takeWhile isDigit with
      | d :: ds => some (d :: ds)
      | [] => matchQueryPage cs
    else matchQueryPage cs

/-- The capture group of the leftmost match of `/\/page\/(\d+)/i`. -/
def matchPathPage : JsString → Option JsString
  | [] => none
  | c :: cs =>
    if isPrefixCI "/page/".toList (c :: cs) then
      match ((c :: cs).drop 6).takeWhile isDigit with
      | d :: ds => some (d :: ds)
      | [] => matchPathPage cs
    else matchPathPage cs

/-- The page number a URL or `href` carries:
`parseInt((s.match(/[?&]page=(\d+)/i) || s.match(/\/page\/(\d+)/i))[1], 10)`,
`none` when neither expression matches. -/
def pageNum (s : JsString) : Option Nat :=
  ((matchQueryPage s).orElse fun _ => matchPathPage s).map digitsToNat

/-- The page number of the current URL, 1 when it carries none. -/
def currentPageNumber (currentUrl : JsString) : Nat :=
  (pageNum currentUrl).getD 1

/-- A pagination link collected from the DOM. -/
structure PageLink where
  selector : JsString
  index : Nat
  href : JsString
  text : JsString
  deriving DecidableEq, Repr

/-- The method `Set.prototype.add` on the set of visited page numbers. -/
def setAdd (visited : List Nat) (n : Nat) : List Nat :=
  if n ∈ visited then visited else visited ++ [n]

/-- The test of the `for` loop of `handlePagination`: the link targets the
page after the current one and that page is not visited. -/
def isExactNext (visited : List Nat) (current : Nat) (link : PageLink) : Bool :=
  match pageNum link.href with
  | some n => decide (n = current + 1) && !decide (n ∈ visited)
  | none => false

/-- The predicate of the fallback `find`: the link targets a later page
that is not visited. -/
def isLaterUnvisited (visited : List Nat) (current : Nat) (link : PageLink) : Bool :=
  match pageNum link.href with
  | some n => decide (n > current) && !decide (n ∈ visited)
  | none => false

/-- The method `handlePagination` on a live page: the visited set after the
call and the link it activates, `none` when it returns `false`. -/
def handlePagination (visitedPages : List Nat) (currentUrl : JsString)
    (pageLinks : List PageLink) : List Nat × Option PageLink :=
  let current := currentPageNumber currentUrl
  let visited := setAdd visitedPages current
  if pageLinks.length = 0 then (visited, none)
  else
    match pageLinks.find? (isExactNext visited current) with
    | some link => (visited, some link)
    | none => (visited, pageLinks.find? (isLaterUnvisited visited current))

/-- A finite link graph: the pagination links shown on each listed page
number; a page that is not listed shows none. -/
abbrev LinkGraph := List (Nat × List PageLink)

/-- The links the page with number `n` shows. -/
def linksAt (graph : LinkGraph) (n : Nat) : List PageLink :=
  (graph.lookup n).getD []

/-- The `while (hasNextPage)` loop of `clickOnRoutes` over a link graph, with
a bound on the number of iterations: activating a link lands on its `href`.
The result is the visited set, the URL and the counter `currentPage` when
`handlePagination` returns `false`; `none` when the bound is reached first. -/
def clickOnRoutes (graph : LinkGraph) :
    Nat → List Nat → JsString → Nat → Option (List Nat × JsString × Nat)
  | 0, _, _, _ => none
  | fuel + 1, visitedPages, url, currentPage =>
    match handlePagination visitedPages url (linksAt graph (currentPageNumber url)) with
    | (visited, some link) => clickOnRoutes graph fuel visited link.href (currentPage + 1)
    | (visited, none) => some (visited, url, currentPage)

/-- The largest page number a link of the graph targets. -/
def maxTarget (graph : LinkGraph) : Nat :=
  (graph.flatMap fun e => e.2.map fun link => (pageNum link.href).getD 0).foldr max 0

/-- A pagination link with the given `href`, for examples. -/
def link (href : String) : PageLink :=
  { selector := "a".toList, index := 0, href := href.toList, text := [] }

/-- The links of the example tab: targets 2, 3, 3 and 5. -/
def exampleLinks : List PageLink :=
  [link "/search/x/page/2", link "/search/x/page/3", link "/search/x/page/3",
   link "/search/x/page/5"]

/-- The guards of the detail branch of the handler: the route item a
response is persisted for, if any. -/
def detailItem (response : Response) : Option (RouteItem × ByidData) :=
  if includes response.url "byid".toList && decide (response.status = 200) then
    match response.body with
    | Body.byid byidData =>
      match byidData.items with
      | some (routeItem :: _) =>
        if routeItem.type = some "route".toList then some (routeItem, byidData) else none
      | _ => none
    | _ => none
  else none

/-- The guards of the schedule branch of the handler: the route id and the
fragment a response stores, if any. -/
def scheduleEntry (tz : Int) (response : Response) : Option (JsString × ScheduleFragment) :=
  if includes response.url "byid".toList && decide (response.status = 200) then none
  else if includes response.url "routing.api.2gis.com/ctx/search_schedule".toList &&
      decide (response.status = 200) then
    match response.body with
    | Body.schedule scheduleData =>
      match matchRouteId response.url, scheduleFragment tz scheduleData with
      | some routeId, some fragment => some (routeId, fragment)
      | _, _ => none
    | _ => none
  else none

/-- Numbers kept as the text they are read from, for examples. -/
def textNumeric : JsNumeric JsString :=
  { Number := fun s => s, parseFloat := fun s => s }

/-- An environment for examples: UTC+5, city `samarkand`. -/
def exampleEnv : Env JsString :=
  { num := textNumeric, tz := 18000, dirname := ["app".toList], city := "samarkand".toList }

/-- A route item with the given id and name, for examples. -/
def exampleRoute (id name : String) : RouteItem :=
  { id := JsKey.str id.toList, type := some "route".toList, name := some name.toList,
    from_name := some "A".toList, to_name := some "B".toList, directions := none }

/-- A detail event for the example route, on a page that shows no schedule. -/
def exampleDetail (id name : String) : Response :=
  { url := "https://catalog.api.2gis.com/3.0/items/byid?id=1".toList, status := 200,
    body := Body.byid { items := some [exampleRoute id name] },
    info := { interval := none, hours := none }, now := "t".toList }

/-- A schedule event for route `id`: every `period` minutes, between the
two epoch seconds. -/
def exampleSchedule (id : String) (period : Nat) (start finish : Int) : Response :=
  { url := ("https://routing.api.2gis.com/ctx/search_schedule/routes/" ++ id).toList,
    status := 200,
    body := Body.schedule
      { responses := some
          [{ status := some "ok".toList,
             schedules := some
               [{ schedule := some
                    { type := some "interval_trip".toList, period := some period,
                      work_hours := some { start_time := start, finish_time := finish } } }] }] },
    info := { interval := none, hours := none }, now := "t".toList }

/-- A coordinate pair as it is written in a line string: the text of the
longitude, a single space, the text of the latitude, with optional padding
before and after. -/
structure WktPair where
  before : JsString
  lon : JsString
  lat : JsString
  after : JsString
  deriving DecidableEq, Repr

/-- The text of a pair. -/
def WktPair.text (p : WktPair) : JsString :=
  p.before ++ (p.lon ++ (' ' :: (p.lat ++ p.after)))

/-- The texts joined by commas (`Array.prototype.join(",")`). -/
def joinComma : List JsString → JsString
  | [] => []
  | [t] => t
  | t :: u :: us => t ++ (',' :: joinComma (u :: us))

/-- The string `LINESTRING(p1,...,pn)`. -/
def lineString (ps : List WktPair) : JsString :=
  "LINESTRING(".toList ++ (joinComma (ps.map WktPair.text) ++ ")".toList)

/-- The text of a coordinate: not empty, without white space and without a
comma, as every numeric literal is. -/
def isToken (t : JsString) : Bool :=
  !t.isEmpty && t.all (fun c => !isJsWhitespace c && !decide (c = ','))

/-- Padding: white space only. -/
def isPadding (w : JsString) : Bool :=
  w.all isJsWhitespace

/-- Padding within a line: white space other than line terminators. -/
def isInlinePadding (w : JsString) : Bool :=
  w.all (fun c => isJsWhitespace c && !isLineTerminator c)

/-- A pair of two coordinate texts with padding around it. -/
def WktPair.wellFormed (p : WktPair) : Bool :=
  isPadding p.before && isToken p.lon && isToken p.lat && isPadding p.after

/-- A pair of two coordinate texts with padding within a line around it. -/
def WktPair.wellFormedInline (p : WktPair) : Bool :=
  isInlinePadding p.before && isToken p.lon && isToken p.lat && isInlinePadding p.after

/-- The pair `lon lat` without padding, for examples. -/
def pair (lon lat : String) : WktPair :=
  { before := [], lon := lon.toList, lat := lat.toList, after := [] }

/-- A route whose only direction is a forward one with the given segment
selections and one stop at `POINT(66.9 39.6)`, for examples. -/
def exampleGeoRoute (selections : List String) : RouteItem :=
  { id := JsKey.str "77".toList, type := some "route".toList, name := some "12".toList,
    from_name := none, to_name := none,
    directions := some
      [{ type := some "forward".toList,
         platforms := some
           [{ name := some "Stop".toList, station_id := some "1".toList,
              centroid := some "POINT(66.9 39.6)".toList }],
         immersion := some (selections.map fun sel => { selection := some sel.toList }) }] }

/-- A tab whose links appear out of order: targets 5, then 3. -/
def unorderedLinks : List PageLink :=
  [link "/search/x/page/5", link "/search/x/page/3"]

/-- A detail event whose payload lists a branch before the example route. -/
def exampleMixedDetail (id name : String) : Response :=
  { url := "https://catalog.api.2gis.com/3.0/items/byid?id=1".toList, status := 200,
    body := Body.byid
      { items := some
          [{ exampleRoute "9" "station" with type := some "branch".toList },
           exampleRoute id name] },
    info := { interval := none, hours := none }, now := "t".toList }

/-- A response of a schedule payload that the handler can take its fragment
from: its status is `ok` and its schedule at index 0 is an interval trip
with a period and a work-hours window. -/
def leadsWithIntervalTrip (response : ScheduleResponse) : Bool :=
  decide (response.status = some "ok".toList) &&
  match response.schedules with
  | some (entry :: _) => isIntervalTrip entry
  | _ => false

/-- A schedule of a fixed timetable, for examples. -/
def timetableEntry : ScheduleEntry :=
  { schedule := some { type := some "precise".toList, period := none, work_hours := none } }

/-- An interval trip every `period` minutes between the two epoch seconds,
for examples. -/
def intervalEntry (period : Nat) (start finish : Int) : ScheduleEntry :=
  { schedule := some
      { type := some "interval_trip".toList, period := some period,
        work_hours := some { start_time := start, finish_time := finish } } }

/-- A schedule event for route `id` with the given responses, for examples. -/
def exampleScheduleOf (id : String) (responses : List ScheduleResponse) : Response :=
  { url := ("https://routing.api.2gis.com/ctx/search_schedule/routes/" ++ id).toList,
    status := 200, body := Body.schedule { responses := some responses },
    info := { interval := none, hours := none }, now := "t".toList }

/-- The detail branch of the handler up to the awaited `saveRouteToFile`
(`index.js` lines 75 to 80): the pending fragment is read from the map and
`saveRouteToFile` is invoked with it; the log and the map are not touched. -/
def detailSave {ν : Type} (env : Env ν) (c : Collector ν) (routeItem : RouteItem)
    (byidData : ByidData) (info : PageInfo) : Collector ν :=
  { c with
    saved := c.saved ++
      [saveRouteToFile env routeItem byidData
        (mapGet c.currentRouteSchedule routeItem.id) info] }

/-- The detail branch of the handler after the awaited `saveRouteToFile`
(`index.js` lines 82 to 91): the log entry is pushed and the key of the
route is deleted from the map, whatever the map holds for it by then. -/
def detailFinish {ν : Type} (c : Collector ν) (response : Response)
    (routeItem : RouteItem) : Collector ν :=
  { c with
    currentRouteSchedule := mapDelete c.currentRouteSchedule routeItem.id
    routeDetails := c.routeDetails ++
      [{ id := routeItem.id, url := response.url, status := response.status,
         routeData := routeItem, fileName := getFileName routeItem,
         timestamp := response.now }] }

/-! # Theorems -/

/-! ## Pagination -/

theorem mem_setAdd (visited : List Nat) (n p : Nat) :
    p ∈ setAdd visited n ↔ p ∈ visited ∨ p = n := by
  unfold setAdd
  split
  · constructor
    · intro h; exact Or.inl h
    · rintro (h | h)
      · exact h
      · subst h; assumption
  · simp

theorem handlePagination_fst (visitedPages : List Nat) (currentUrl : JsString)
    (pageLinks : List PageLink) :
    (handlePagination visitedPages currentUrl pageLinks).1 =
      setAdd visitedPages (currentPageNumber currentUrl) := by
  unfold handlePagination
  simp only []
  split
  · rfl
  · split <;> rfl

/-- What a selected link satisfies: it is one of the links found, and it
passes the exact-next test or the later-unvisited test. -/
theorem handlePagination_snd (visitedPages : List Nat) (currentUrl : JsString)
    (pageLinks : List PageLink) (l : PageLink)
    (h : (handlePagination visitedPages currentUrl pageLinks).2 = some l) :
    l ∈ pageLinks ∧
      (isExactNext (setAdd visitedPages (currentPageNumber currentUrl))
          (currentPageNumber currentUrl) l = true ∨
       isLaterUnvisited (setAdd visitedPages (currentPageNumber currentUrl))
          (currentPageNumber currentUrl) l = true) := by
  unfold handlePagination at h
  simp only [] at h
  split at h
  · cases h
  · split at h
    · rename_i link hfind
      simp only [Option.some.injEq] at h
      subst h
      exact ⟨List.mem_of_find?_eq_some hfind, Or.inl (List.find?_some hfind)⟩
    · exact ⟨List.mem_of_find?_eq_some h, Or.inr (List.find?_some h)⟩

/-- A selected link targets an unvisited page beyond the current one. -/
theorem handlePagination_target (visitedPages : List Nat) (currentUrl : JsString)
    (pageLinks : List PageLink) (l : PageLink)
    (h : (handlePagination visitedPages currentUrl pageLinks).2 = some l) :
    l ∈ pageLinks ∧ ∃ n, pageNum l.href = some n ∧ currentPageNumber currentUrl < n ∧
      n ∉ setAdd visitedPages (currentPageNumber currentUrl) := by
  obtain ⟨hmem, hsel⟩ := handlePagination_snd visitedPages currentUrl pageLinks l h
  refine ⟨hmem, ?_⟩
  rcases hsel with hsel | hsel
  · unfold isExactNext at hsel
    split at hsel
    · rename_i n hn
      simp only [Bool.and_eq_true, decide_eq_true_eq, Bool.not_eq_true', decide_eq_false_iff_not]
        at hsel
      exact ⟨n, hn, by omega, hsel.2⟩
    · cases hsel
  · unfold isLaterUnvisited at hsel
    split at hsel
    · rename_i n hn
      simp only [Bool.and_eq_true, decide_eq_true_eq, Bool.not_eq_true', decide_eq_false_iff_not]
        at hsel
      exact ⟨n, hn, hsel.1, hsel.2⟩
    · cases hsel

/-- Claim C7. If `handlePagination` selects a link, the link is one of the
links found and its target page number is not in `visitedPages` as it stands
after the current page number was added, hence is not the current page; the
visited set after the call consists of the visited set before it and the
current page number. -/
theorem handlePagination_never_revisits (visitedPages : List Nat) (currentUrl : JsString)
    (pageLinks : List PageLink) :
    (∀ l, (handlePagination visitedPages currentUrl pageLinks).2 = some l →
      l ∈ pageLinks ∧ ∃ n, pageNum l.href = some n ∧
        n ∉ (handlePagination visitedPages currentUrl pageLinks).1 ∧
        n ∉ visitedPages ∧ n ≠ currentPageNumber currentUrl) ∧
    (∀ p, p ∈ visitedPages → p ∈ (handlePagination visitedPages currentUrl pageLinks).1) ∧
    currentPageNumber currentUrl ∈ (handlePagination visitedPages currentUrl pageLinks).1 ∧
    (∀ p, p ∈ (handlePagination visitedPages currentUrl pageLinks).1 →
      p ∈ visitedPages ∨ p = currentPageNumber currentUrl) := by
  rw [handlePagination_fst]
  refine ⟨?_, ?_, ?_, ?_⟩
  · intro l h
    obtain ⟨hmem, n, hn, hlt, hnot⟩ :=
      handlePagination_target visitedPages currentUrl pageLinks l h
    refine ⟨hmem, n, hn, hnot, ?_, by omega⟩
    intro hv
    exact hnot ((mem_setAdd _ _ _).2 (Or.inl hv))
  · intro p hp
    exact (mem_setAdd _ _ _).2 (Or.inl hp)
  · exact (mem_setAdd _ _ _).2 (Or.inr rfl)
  · intro p hp
    exact (mem_setAdd _ _ _).1 hp

/-- Claim C7, at the example tab on page 2 with pages 1 and 2 visited: the
call selects the link to page 3, which is not visited. -/
theorem handlePagination_never_revisits_witness :
    (handlePagination [1, 2] "https://2gis.uz/search/x/page/2".toList exampleLinks).2 =
        some (link "/search/x/page/3") ∧
      (link "/search/x/page/3" ∈ exampleLinks ∧
        ∃ n, pageNum (link "/search/x/page/3").href = some n ∧
          n ∉ (handlePagination [1, 2] "https://2gis.uz/search/x/page/2".toList exampleLinks).1 ∧
          n ∉ [1, 2] ∧ n ≠ currentPageNumber "https://2gis.uz/search/x/page/2".toList) :=
  ⟨by decide,
   (handlePagination_never_revisits [1, 2] "https://2gis.uz/search/x/page/2".toList
      exampleLinks).1 (link "/search/x/page/3") (by decide)⟩

theorem pageNum_le_maxTarget_aux (ns : List Nat) (n : Nat) (h : n ∈ ns) :
    n ≤ ns.foldr max 0 := by
  induction ns with
  | nil => cases h
  | cons a as ih =>
    simp only [List.foldr_cons]
    rcases List.mem_cons.1 h with h | h
    · subst h; exact Nat.le_max_left _ _
    · exact Nat.le_trans (ih h) (Nat.le_max_right _ _)

/-- Every link the graph shows targets a page number up to `maxTarget`. -/
theorem pageNum_le_maxTarget (graph : LinkGraph) (k : Nat) (l : PageLink) (n : Nat)
    (hl : l ∈ linksAt graph k) (hn : pageNum l.href = some n) : n ≤ maxTarget graph := by
  unfold linksAt at hl
  cases hlook : graph.lookup k with
  | none => rw [hlook] at hl; cases hl
  | some links =>
    rw [hlook] at hl
    simp only [Option.getD_some] at hl
    have hmem : (k, links) ∈ graph := by
      have := List.lookup_eq_some_iff.1 hlook
      obtain ⟨l₁, l₂, rfl, -⟩ := this
      simp
    apply pageNum_le_maxTarget_aux
    simp only [List.mem_flatMap, List.mem_map]
    exact ⟨(k, links), hmem, l, hl, by rw [hn]; rfl⟩

/-- The loop returns as soon as the bound exceeds the distance from the
current page number to the largest target of the graph. -/
theorem clickOnRoutes_returns (graph : LinkGraph) :
    ∀ (fuel : Nat) (visitedPages : List Nat) (url : JsString) (currentPage : Nat),
      maxTarget graph + 1 - currentPageNumber url < fuel →
      ∃ r, clickOnRoutes graph fuel visitedPages url currentPage = some r := by
  intro fuel
  induction fuel with
  | zero => intro _ _ _ h; omega
  | succ fuel ih =>
    intro visitedPages url currentPage hfuel
    unfold clickOnRoutes
    cases hstep : handlePagination visitedPages url (linksAt graph (currentPageNumber url)) with
    | mk visited next =>
      cases next with
      | none => exact ⟨_, rfl⟩
      | some l =>
        simp only []
        have hsel : (handlePagination visitedPages url
            (linksAt graph (currentPageNumber url))).2 = some l := by rw [hstep]
        obtain ⟨hmem, n, hn, hlt, -⟩ := handlePagination_target _ _ _ _ hsel
        have hle := pageNum_le_maxTarget graph _ l n hmem hn
        have hcur : currentPageNumber l.href = n := by
          unfold currentPageNumber; rw [hn]; rfl
        apply ih
        rw [hcur]
        omega

/-- A result of the loop is a state in which `handlePagination` returned `false`. -/
theorem clickOnRoutes_exhausted (graph : LinkGraph) :
    ∀ (fuel : Nat) (visitedPages : List Nat) (url : JsString) (currentPage : Nat)
      (visited : List Nat) (finalUrl : JsString) (pages : Nat),
      clickOnRoutes graph fuel visitedPages url currentPage = some (visited, finalUrl, pages) →
      ∃ before, handlePagination before finalUrl
        (linksAt graph (currentPageNumber finalUrl)) = (visited, none) := by
  intro fuel
  induction fuel with
  | zero => intro _ _ _ _ _ _ h; cases h
  | succ fuel ih =>
    intro visitedPages url currentPage visited finalUrl pages h
    unfold clickOnRoutes at h
    cases hstep : handlePagination visitedPages url (linksAt graph (currentPageNumber url)) with
    | mk v next =>
      rw [hstep] at h
      cases next with
      | none =>
        simp only [Option.some.injEq, Prod.mk.injEq] at h
        obtain ⟨rfl, rfl, -⟩ := h
        exact ⟨visitedPages, hstep⟩
      | some l => exact ih _ _ _ _ _ _ h

/-- Claim C8. Over every finite link graph, from every visited set and every
starting URL, the loop of `clickOnRoutes` ends: within `maxTarget graph + 2`
calls `handlePagination` returns `false` (nothing is selected), and the loop
returns the state it stopped in. -/
theorem clickOnRoutes_terminates (graph : LinkGraph) (visitedPages : List Nat)
    (url : JsString) (currentPage : Nat) :
    ∃ visited finalUrl pages before,
      clickOnRoutes graph (maxTarget graph + 2) visitedPages url currentPage =
        some (visited, finalUrl, pages) ∧
      handlePagination before finalUrl (linksAt graph (currentPageNumber finalUrl)) =
        (visited, none) := by
  obtain ⟨⟨v, u, p⟩, h⟩ :=
    clickOnRoutes_returns graph (maxTarget graph + 2) visitedPages url currentPage (by omega)
  obtain ⟨b, hb⟩ := clickOnRoutes_exhausted graph _ _ _ _ _ _ _ h
  exact ⟨v, u, p, b, h, hb⟩

/-- Some link found targets the page after the current one, and that page
is not visited: the exact-next test finds a link. -/
theorem find_exactNext (visited : List Nat) (current : Nat) (pageLinks : List PageLink)
    (h : ∃ l, l ∈ pageLinks ∧ pageNum l.href = some (current + 1))
    (hv : current + 1 ∉ visited) :
    ∃ l, pageLinks.find? (isExactNext visited current) = some l ∧ l ∈ pageLinks ∧
      pageNum l.href = some (current + 1) := by
  obtain ⟨l₀, hmem, hnum⟩ := h
  have hsome : (pageLinks.find? (isExactNext visited current)).isSome := by
    rw [List.find?_isSome]
    refine ⟨l₀, hmem, ?_⟩
    unfold isExactNext
    rw [hnum]
    simp [hv]
  obtain ⟨l, hl⟩ := Option.isSome_iff_exists.1 hsome
  refine ⟨l, hl, List.mem_of_find?_eq_some hl, ?_⟩
  have hp := List.find?_some hl
  unfold isExactNext at hp
  split at hp
  · rename_i n hn
    simp only [Bool.and_eq_true, decide_eq_true_eq] at hp
    rw [hn, hp.1]
  · cases hp

/-- Claim C9. Whenever some link found targets page `n + 1`, where `n` is the
current page number, and `n + 1` is not visited, `handlePagination` selects a
link whose target is `n + 1`, whatever the other links and their order. -/
theorem handlePagination_prefers_next (visitedPages : List Nat) (currentUrl : JsString)
    (pageLinks : List PageLink)
    (h : ∃ l, l ∈ pageLinks ∧ pageNum l.href = some (currentPageNumber currentUrl + 1))
    (hv : currentPageNumber currentUrl + 1 ∉ visitedPages) :
    ∃ l, (handlePagination visitedPages currentUrl pageLinks).2 = some l ∧ l ∈ pageLinks ∧
      pageNum l.href = some (currentPageNumber currentUrl + 1) := by
  have hv2 : currentPageNumber currentUrl + 1 ∉
      setAdd visitedPages (currentPageNumber currentUrl) := by
    rw [mem_setAdd]
    rintro (h1 | h1)
    · exact hv h1
    · omega
  obtain ⟨l, hfind, hmem, hnum⟩ := find_exactNext _ _ pageLinks h hv2
  refine ⟨l, ?_, hmem, hnum⟩
  unfold handlePagination
  simp only []
  split
  · rename_i hlen
    have : pageLinks = [] := List.length_eq_zero.1 hlen
    subst this
    cases hmem
  · rw [hfind]

/-- Claim C9, at the example tab with targets 2, 3, 3, 5: on page 1 a link
to page 2 is selected, and on page 2, with pages 1 and 2 visited, a link to
page 3 is selected rather than the link to page 5. -/
theorem handlePagination_prefers_next_witness :
    (∃ l, (handlePagination [] "https://2gis.uz/search/x".toList exampleLinks).2 = some l ∧
      l ∈ exampleLinks ∧ pageNum l.href = some 2) ∧
    (∃ l, (handlePagination [1, 2] "https://2gis.uz/search/x/page/2".toList exampleLinks).2 =
        some l ∧ l ∈ exampleLinks ∧ pageNum l.href = some 3) :=
  ⟨handlePagination_prefers_next [] "https://2gis.uz/search/x".toList exampleLinks
      ⟨link "/search/x/page/2", by decide, by decide⟩ (by decide),
   handlePagination_prefers_next [1, 2] "https://2gis.uz/search/x/page/2".toList exampleLinks
      ⟨link "/search/x/page/3", by decide, by decide⟩ (by decide)⟩

/-! ## The response correlator -/

theorem lookup_cons_self (k : JsString) (v : ScheduleFragment) (es : ScheduleMap) :
    List.lookup k ((k, v) :: es) = some v := by
  rw [List.lookup_cons, beq_self_eq_true]

theorem lookup_cons_ne (k a : JsString) (b : ScheduleFragment) (es : ScheduleMap)
    (h : k ≠ a) : List.lookup k ((a, b) :: es) = List.lookup k es := by
  rw [List.lookup_cons, beq_eq_false_iff_ne.2 h]

theorem lookup_mapSet_self (m : ScheduleMap) (k : JsString) (v : ScheduleFragment) :
    List.lookup k (mapSet m k v) = some v := by
  induction m with
  | nil => exact lookup_cons_self k v []
  | cons e es ih =>
    obtain ⟨a, b⟩ := e
    unfold mapSet
    by_cases ha : a = k
    · rw [if_pos ha]; exact lookup_cons_self k v es
    · rw [if_neg ha, lookup_cons_ne k a b _ (fun h => ha h.symm)]
      exact ih

theorem lookup_mapSet_ne (m : ScheduleMap) (k k' : JsString) (v : ScheduleFragment)
    (hk : k' ≠ k) : List.lookup k' (mapSet m k v) = List.lookup k' m := by
  induction m with
  | nil => exact lookup_cons_ne k' k v [] hk
  | cons e es ih =>
    obtain ⟨a, b⟩ := e
    unfold mapSet
    by_cases ha : a = k
    · rw [if_pos ha, lookup_cons_ne k' k v es hk, lookup_cons_ne k' a b es (by rw [ha]; exact hk)]
    · rw [if_neg ha]
      by_cases hk' : k' = a
      · subst hk'
        rw [lookup_cons_self, lookup_cons_self]
      · rw [lookup_cons_ne k' a b _ hk', lookup_cons_ne k' a b _ hk']
        exact ih

theorem mapGet_mapSet_self (m : ScheduleMap) (k : JsString) (v : ScheduleFragment) :
    mapGet (mapSet m k v) (JsKey.str k) = some v :=
  lookup_mapSet_self m k v

theorem mapGet_mapSet_ne (m : ScheduleMap) (k k' : JsString) (v : ScheduleFragment)
    (hk : k' ≠ k) : mapGet (mapSet m k v) (JsKey.str k') = mapGet m (JsKey.str k') :=
  lookup_mapSet_ne m k k' v hk

theorem filter_ne_cons (a k : JsString) (b : ScheduleFragment) (es : ScheduleMap) :
    List.filter (fun e => decide (e.1 ≠ k)) ((a, b) :: es) =
      if a = k then List.filter (fun e => decide (e.1 ≠ k)) es
      else (a, b) :: List.filter (fun e => decide (e.1 ≠ k)) es := by
  rw [List.filter_cons]
  by_cases ha : a = k
  · simp only [ne_eq, ha, not_true_eq_false, decide_False, if_true, Bool.false_eq_true, if_false]
  · simp only [ne_eq, ha, not_false_eq_true, decide_True, if_true, if_false]

theorem lookup_filter_ne (m : ScheduleMap) (k k' : JsString) (hk : k' ≠ k) :
    (m.filter (fun e => e.1 ≠ k)).lookup k' = m.lookup k' := by
  induction m with
  | nil => rfl
  | cons e es ih =>
    obtain ⟨a, b⟩ := e
    rw [filter_ne_cons]
    by_cases ha : a = k
    · rw [if_pos ha, lookup_cons_ne k' a b es (by rw [ha]; exact hk)]
      exact ih
    · rw [if_neg ha]
      by_cases hk' : k' = a
      · subst hk'
        rw [lookup_cons_self, lookup_cons_self]
      · rw [lookup_cons_ne k' a b _ hk', lookup_cons_ne k' a b _ hk']
        exact ih

theorem lookup_filter_self (m : ScheduleMap) (k : JsString) :
    (m.filter (fun e => e.1 ≠ k)).lookup k = none := by
  induction m with
  | nil => rfl
  | cons e es ih =>
    obtain ⟨a, b⟩ := e
    rw [filter_ne_cons]
    by_cases ha : a = k
    · rw [if_pos ha]
      exact ih
    · rw [if_neg ha, lookup_cons_ne k a b _ (fun h => ha h.symm)]
      exact ih

theorem mapGet_mapDelete_self (m : ScheduleMap) (k : JsString) :
    mapGet (mapDelete m (JsKey.str k)) (JsKey.str k) = none :=
  lookup_filter_self m k

theorem mapGet_mapDelete_ne (m : ScheduleMap) (key : JsKey) (k' : JsString)
    (hk : key ≠ JsKey.str k') :
    mapGet (mapDelete m key) (JsKey.str k') = mapGet m (JsKey.str k') := by
  cases key with
  | num n => rfl
  | str k =>
    apply lookup_filter_ne
    intro h
    exact hk (by rw [h])

/-- The handler on a response that passes the guards of the detail branch. -/
theorem onResponse_detail {ν : Type} (env : Env ν) (c : Collector ν) (response : Response)
    (routeItem : RouteItem) (byidData : ByidData)
    (h : detailItem response = some (routeItem, byidData)) :
    onResponse env c response =
      { currentRouteSchedule := mapDelete c.currentRouteSchedule routeItem.id
        routeDetails := c.routeDetails ++
          [{ id := routeItem.id, url := response.url, status := response.status,
             routeData := routeItem, fileName := getFileName routeItem,
             timestamp := response.now }]
        saved := c.saved ++
          [saveRouteToFile env routeItem byidData
            (mapGet c.currentRouteSchedule routeItem.id) response.info] } := by
  unfold detailItem at h
  unfold onResponse
  split at h
  · rename_i hg
    rw [if_pos hg]
    split at h
    · split at h
      · split at h
        · rename_i hty
          simp only [Option.some.injEq, Prod.mk.injEq] at h
          obtain ⟨rfl, rfl⟩ := h
          simp only [hty, if_true]
        · cases h
      · cases h
    · cases h
  · cases h

/-- The handler on a response that passes the guards of the schedule branch. -/
theorem onResponse_schedule {ν : Type} (env : Env ν) (c : Collector ν) (response : Response)
    (routeId : JsString) (fragment : ScheduleFragment)
    (h : scheduleEntry env.tz response = some (routeId, fragment)) :
    onResponse env c response =
      { c with currentRouteSchedule := mapSet c.currentRouteSchedule routeId fragment } := by
  unfold scheduleEntry at h
  unfold onResponse
  split at h
  · cases h
  · rename_i hg
    rw [if_neg hg]
    split at h
    · rename_i hg2
      rw [if_pos hg2]
      split at h
      · rename_i sd hb
        split at h
        · rename_i rid frag hrid hfrag
          simp only [Option.some.injEq, Prod.mk.injEq] at h
          obtain ⟨rfl, rfl⟩ := h
          have hresp : ∃ rs, sd.responses = some rs := by
            unfold scheduleFragment at hfrag
            cases hr : sd.responses with
            | none => rw [hr] at hfrag; cases hfrag
            | some rs => exact ⟨rs, rfl⟩
          obtain ⟨rs, hrs⟩ := hresp
          simp only [hrs, hrid, hfrag]
        · cases h
      · cases h
    · cases h

/-- The handler on a response that passes neither set of guards. -/
theorem onResponse_other {ν : Type} (env : Env ν) (c : Collector ν) (response : Response)
    (hd : detailItem response = none) (hs : scheduleEntry env.tz response = none) :
    onResponse env c response = c := by
  unfold detailItem at hd
  unfold scheduleEntry at hs
  unfold onResponse
  split
  · rename_i hg
    rw [if_pos hg] at hd
    split
    · rename_i bd hb
      rw [hb] at hd
      simp only at hd
      split
      · rename_i item rest hit
        rw [hit] at hd
        simp only at hd
        split
        · rename_i hty
          rw [if_pos hty] at hd
          cases hd
        · rfl
      · rfl
    · rfl
  · rename_i hg
    rw [if_neg hg] at hs
    split
    · rename_i hg2
      rw [if_pos hg2] at hs
      split
      · rename_i sd hb
        rw [hb] at hs
        simp only at hs
        split
        · rename_i rs rid hrs hrid
          rw [hrid] at hs
          split
          · rename_i frag hfrag
            rw [hfrag] at hs
            cases hs
          · rfl
        · rfl
      · rfl
    · rfl

theorem truthy_of_ne_nil (l : JsString) (h : l ≠ []) : truthy (some l) = true := by
  cases l with
  | nil => exact absurd rfl h
  | cons a as => rfl

/-- A fragment the schedule branch computes has a non-empty interval text
and a non-empty hours text. -/
theorem scheduleFragment_truthy (tz : Int) (scheduleData : ScheduleData)
    (f : ScheduleFragment) (h : scheduleFragment tz scheduleData = some f) :
    truthy (some f.interval) = true ∧ truthy (some f.hours) = true := by
  unfold scheduleFragment at h
  split at h
  · cases h
  · simp only [] at h
    split at h
    · split at h
      · split at h
        · simp only [Option.some.injEq] at h
          subst h
          constructor
          · apply truthy_of_ne_nil
            intro hnil
            have hlen := congrArg List.length hnil
            have h1 : ("каждые ".toList).length = 7 := by decide
            simp only [List.length_append, h1, List.length_nil] at hlen
            omega
          · apply truthy_of_ne_nil
            intro hnil
            have hlen := congrArg List.length hnil
            have h1 : ("–".toList).length = 1 := by decide
            simp only [List.length_append, h1, List.length_nil] at hlen
            omega
        · cases h
      · cases h
    · cases h

theorem scheduleEntry_truthy (tz : Int) (response : Response) (routeId : JsString)
    (f : ScheduleFragment) (h : scheduleEntry tz response = some (routeId, f)) :
    truthy (some f.interval) = true ∧ truthy (some f.hours) = true := by
  unfold scheduleEntry at h
  split at h
  · cases h
  · split at h
    · split at h
      · split at h
        · rename_i rid frag hrid hfrag
          simp only [Option.some.injEq, Prod.mk.injEq] at h
          obtain ⟨-, rfl⟩ := h
          exact scheduleFragment_truthy tz _ _ hfrag
        · cases h
      · cases h
    · cases h

/-- A record saved with a buffered fragment carries the fragment's texts. -/
theorem saveRouteToFile_with_fragment {ν : Type} (env : Env ν) (routeItem : RouteItem)
    (byidData : ByidData) (f : ScheduleFragment) (info : PageInfo)
    (hf : truthy (some f.interval) = true ∧ truthy (some f.hours) = true) :
    (saveRouteToFile env routeItem byidData (some f) info).additional_info.interval =
        some f.interval ∧
    (saveRouteToFile env routeItem byidData (some f) info).additional_info.hours =
        some f.hours := by
  unfold saveRouteToFile
  simp only [Option.map_some', jsOr, hf.1, hf.2, if_true, and_self]

/-- A record saved without a buffered fragment carries what the page shows,
`null` when the page shows nothing. -/
theorem saveRouteToFile_without_fragment {ν : Type} (env : Env ν) (routeItem : RouteItem)
    (byidData : ByidData) (info : PageInfo) :
    (saveRouteToFile env routeItem byidData none info).additional_info.interval =
        jsOr info.interval none ∧
    (saveRouteToFile env routeItem byidData none info).additional_info.hours =
        jsOr info.hours none := by
  unfold saveRouteToFile getRouteAdditionalInfo
  simp only [Option.map_none', jsOr, truthy, Bool.false_eq_true, if_false, and_self]

theorem run_cons {ν : Type} (env : Env ν) (c : Collector ν) (e : Response)
    (es : List Response) : run env c (e :: es) = run env (onResponse env c e) es := rfl

theorem run_append {ν : Type} (env : Env ν) (c : Collector ν) (es₁ es₂ : List Response) :
    run env c (es₁ ++ es₂) = run env (run env c es₁) es₂ := by
  unfold run
  rw [List.foldl_append]

/-- A response that is neither a detail event for `id` nor a schedule event
for `id` leaves the fragment buffered for `id` as it is. -/
theorem onResponse_keeps {ν : Type} (env : Env ν) (c : Collector ν) (e : Response)
    (id : JsString)
    (hd : (detailItem e).map (fun p => p.1.id) ≠ some (JsKey.str id))
    (hs : (scheduleEntry env.tz e).map (fun p => p.1) ≠ some id) :
    mapGet (onResponse env c e).currentRouteSchedule (JsKey.str id) =
      mapGet c.currentRouteSchedule (JsKey.str id) := by
  cases hdi : detailItem e with
  | some p =>
    obtain ⟨it, dc⟩ := p
    rw [onResponse_detail env c e it dc hdi]
    apply mapGet_mapDelete_ne
    intro hEq
    apply hd
    rw [hdi]
    exact congrArg some hEq
  | none =>
    cases hse : scheduleEntry env.tz e with
    | some p =>
      obtain ⟨rid, f⟩ := p
      rw [onResponse_schedule env c e rid f hse]
      apply mapGet_mapSet_ne
      intro hEq
      apply hs
      rw [hse]
      exact congrArg some hEq.symm
    | none => rw [onResponse_other env c e hdi hse]

theorem run_keeps {ν : Type} (env : Env ν) (id : JsString) (es : List Response) :
    ∀ c : Collector ν,
    (∀ e, e ∈ es → (detailItem e).map (fun p => p.1.id) ≠ some (JsKey.str id) ∧
      (scheduleEntry env.tz e).map (fun p => p.1) ≠ some id) →
    mapGet (run env c es).currentRouteSchedule (JsKey.str id) =
      mapGet c.currentRouteSchedule (JsKey.str id) := by
  induction es with
  | nil => intro c _; rfl
  | cons e es ih =>
    intro c h
    rw [run_cons, ih _ (fun e' he' => h e' (List.mem_cons_of_mem _ he'))]
    exact onResponse_keeps env c e id (h e (List.mem_cons_self _ _)).1
      (h e (List.mem_cons_self _ _)).2

/-- Claim C1, as stated, fails: for route id 77, with a page that shows no
schedule, schedule-then-detail persists the interval and hours of the
fragment, and detail-then-schedule persists `null` for both. -/
theorem correlator_order_counterexample :
    scheduleEntry exampleEnv.tz (exampleSchedule "77" 10 3600 61200) =
        some ("77".toList,
          { interval := "каждые 10 минут".toList, hours := "06:00–22:00".toList }) ∧
    detailItem (exampleDetail "77" "12") =
        some (exampleRoute "77" "12", { items := some [exampleRoute "77" "12"] }) ∧
    (run exampleEnv (Collector.init JsString)
        [exampleSchedule "77" 10 3600 61200, exampleDetail "77" "12"]).saved.map
      (fun call => (call.additional_info.interval, call.additional_info.hours)) =
        [(some "каждые 10 минут".toList, some "06:00–22:00".toList)] ∧
    (run exampleEnv (Collector.init JsString)
        [exampleDetail "77" "12", exampleSchedule "77" 10 3600 61200]).saved.map
      (fun call => (call.additional_info.interval, call.additional_info.hours)) =
        [(none, none)] := by
  refine ⟨?_, ?_, ?_, ?_⟩ <;> decide

/-- An uninterrupted invocation on a detail event is the two phases of the
detail branch, one after the other. -/
theorem onResponse_detail_phases {ν : Type} (env : Env ν) (c : Collector ν)
    (response : Response) (routeItem : RouteItem) (byidData : ByidData)
    (h : detailItem response = some (routeItem, byidData)) :
    onResponse env c response =
      detailFinish (detailSave env c routeItem byidData response.info) response routeItem := by
  rw [onResponse_detail env c response routeItem byidData h]
  rfl

/-- A schedule event for the route handled while `saveRouteToFile` is
awaited: the record was saved without the fragment, and the `delete` that
follows the await removes the fragment that arrived in between. -/
theorem schedule_during_save {ν : Type} (env : Env ν) (c : Collector ν) (s d : Response)
    (id : JsString) (f : ScheduleFragment) (routeItem : RouteItem) (byidData : ByidData)
    (hs : scheduleEntry env.tz s = some (id, f))
    (hid : routeItem.id = JsKey.str id) :
    (detailFinish (onResponse env (detailSave env c routeItem byidData d.info) s) d
        routeItem).saved =
      c.saved ++ [saveRouteToFile env routeItem byidData
        (mapGet c.currentRouteSchedule routeItem.id) d.info] ∧
    mapGet (detailFinish (onResponse env (detailSave env c routeItem byidData d.info) s) d
        routeItem).currentRouteSchedule (JsKey.str id) = none := by
  rw [onResponse_schedule env _ s id f hs]
  constructor
  · rfl
  · show mapGet (mapDelete _ routeItem.id) (JsKey.str id) = none
    rw [hid]
    exact mapGet_mapDelete_self _ _

/-- Claim C1, amended. From an empty pending-schedule map, for a schedule
event that yields fragment `f` for route id `id` and a detail event whose
first item is a route with that id: schedule-then-detail persists one record,
with the interval and hours of `f`; detail-then-schedule persists one record,
with the interval and hours the page shows (`null` when it shows none),
whether the schedule event is handled after the detail invocation has
finished or while its `saveRouteToFile` is awaited; the two records carry
the same interval and hours exactly when what the page shows equals the
fragment. -/
theorem correlator_order_merge {ν : Type} (env : Env ν) (s d : Response) (id : JsString)
    (f : ScheduleFragment) (routeItem : RouteItem) (byidData : ByidData)
    (hs : scheduleEntry env.tz s = some (id, f))
    (hd : detailItem d = some (routeItem, byidData))
    (hid : routeItem.id = JsKey.str id) :
    (run env (Collector.init ν) [s, d]).saved =
        [saveRouteToFile env routeItem byidData (some f) d.info] ∧
    (run env (Collector.init ν) [d, s]).saved =
        [saveRouteToFile env routeItem byidData none d.info] ∧
    (detailFinish
        (onResponse env (detailSave env (Collector.init ν) routeItem byidData d.info) s) d
        routeItem).saved =
        [saveRouteToFile env routeItem byidData none d.info] ∧
    (saveRouteToFile env routeItem byidData (some f) d.info).additional_info.interval =
        some f.interval ∧
    (saveRouteToFile env routeItem byidData (some f) d.info).additional_info.hours =
        some f.hours ∧
    (saveRouteToFile env routeItem byidData none d.info).additional_info.interval =
        jsOr d.info.interval none ∧
    (saveRouteToFile env routeItem byidData none d.info).additional_info.hours =
        jsOr d.info.hours none ∧
    ((run env (Collector.init ν) [s, d]).saved.map
        (fun call => (call.additional_info.interval, call.additional_info.hours)) =
      (run env (Collector.init ν) [d, s]).saved.map
        (fun call => (call.additional_info.interval, call.additional_info.hours)) ↔
      jsOr d.info.interval none = some f.interval ∧ jsOr d.info.hours none = some f.hours) := by
  have htr := scheduleEntry_truthy env.tz s id f hs
  have hwith := saveRouteToFile_with_fragment env routeItem byidData f d.info htr
  have hwithout := saveRouteToFile_without_fragment env routeItem byidData d.info
  have hsd : (run env (Collector.init ν) [s, d]).saved =
      [saveRouteToFile env routeItem byidData (some f) d.info] := by
    rw [run_cons, run_cons, onResponse_schedule env _ s id f hs,
      onResponse_detail env _ d routeItem byidData hd]
    simp only [Collector.init, List.nil_append, hid, mapGet_mapSet_self]
    rfl
  have hempty : mapGet (Collector.init ν).currentRouteSchedule routeItem.id = none := by
    rw [hid]
    rfl
  have hds : (run env (Collector.init ν) [d, s]).saved =
      [saveRouteToFile env routeItem byidData none d.info] := by
    rw [run_cons, run_cons, onResponse_detail env _ d routeItem byidData hd,
      onResponse_schedule env _ s id f hs, hempty]
    rfl
  have hduring := (schedule_during_save env (Collector.init ν) s d id f routeItem byidData
    hs hid).1
  rw [hempty] at hduring
  refine ⟨hsd, hds, hduring, hwith.1, hwith.2, hwithout.1, hwithout.2, ?_⟩
  rw [hsd, hds]
  simp only [List.map_cons, List.map_nil, List.cons.injEq, Prod.mk.injEq, and_true,
    hwith.1, hwith.2, hwithout.1, hwithout.2]
  constructor
  · rintro ⟨h1, h2⟩; exact ⟨h1.symm, h2.symm⟩
  · rintro ⟨h1, h2⟩; exact ⟨h1.symm, h2.symm⟩

/-- Claim C1, amended, at route id 77 with a page that shows no schedule:
the record of schedule-then-detail carries the fragment, and the record of
detail-then-schedule, with the schedule event handled during the save, is
the one saved without a fragment. -/
theorem correlator_order_merge_witness :
    (run exampleEnv (Collector.init JsString)
        [exampleSchedule "77" 10 3600 61200, exampleDetail "77" "12"]).saved =
      [saveRouteToFile exampleEnv (exampleRoute "77" "12")
        { items := some [exampleRoute "77" "12"] }
        (some { interval := "каждые 10 минут".toList, hours := "06:00–22:00".toList })
        (exampleDetail "77" "12").info] ∧
    (detailFinish
        (onResponse exampleEnv
          (detailSave exampleEnv (Collector.init JsString) (exampleRoute "77" "12")
            { items := some [exampleRoute "77" "12"] } (exampleDetail "77" "12").info)
          (exampleSchedule "77" 10 3600 61200))
        (exampleDetail "77" "12") (exampleRoute "77" "12")).saved =
      [saveRouteToFile exampleEnv (exampleRoute "77" "12")
        { items := some [exampleRoute "77" "12"] } none (exampleDetail "77" "12").info] :=
  have h := correlator_order_merge exampleEnv (exampleSchedule "77" 10 3600 61200)
    (exampleDetail "77" "12") "77".toList
    { interval := "каждые 10 минут".toList, hours := "06:00–22:00".toList }
    (exampleRoute "77" "12") { items := some [exampleRoute "77" "12"] }
    (by decide) (by decide) (by decide)
  ⟨h.1, h.2.2.1⟩

/-- Claim C2. After a first schedule event for route id `id`, any events in
between, and a second schedule event for `id` that yields fragment `f2`, the
pending-schedule map holds exactly `f2` for `id`; and if no further event
for `id` comes before it, the next detail event for `id` is persisted with
the interval and hours of `f2`, and the fragment is consumed. -/
theorem second_schedule_overwrites {ν : Type} (env : Env ν) (c : Collector ν)
    (s1 s2 d : Response) (between after : List Response) (id : JsString)
    (f1 f2 : ScheduleFragment) (routeItem : RouteItem) (byidData : ByidData)
    (h1 : scheduleEntry env.tz s1 = some (id, f1))
    (h2 : scheduleEntry env.tz s2 = some (id, f2))
    (hafter : ∀ e, e ∈ after →
      (detailItem e).map (fun p => p.1.id) ≠ some (JsKey.str id) ∧
      (scheduleEntry env.tz e).map (fun p => p.1) ≠ some id)
    (hd : detailItem d = some (routeItem, byidData))
    (hid : routeItem.id = JsKey.str id) :
    mapGet (run env c [s1]).currentRouteSchedule (JsKey.str id) = some f1 ∧
    mapGet (run env c ([s1] ++ between ++ [s2])).currentRouteSchedule (JsKey.str id) =
        some f2 ∧
    (run env c ([s1] ++ between ++ [s2] ++ after ++ [d])).saved =
        (run env c ([s1] ++ between ++ [s2] ++ after)).saved ++
          [saveRouteToFile env routeItem byidData (some f2) d.info] ∧
    (saveRouteToFile env routeItem byidData (some f2) d.info).additional_info.interval =
        some f2.interval ∧
    (saveRouteToFile env routeItem byidData (some f2) d.info).additional_info.hours =
        some f2.hours ∧
    mapGet (run env c ([s1] ++ between ++ [s2] ++ after ++ [d])).currentRouteSchedule
        (JsKey.str id) = none := by
  have htr := scheduleEntry_truthy env.tz s2 id f2 h2
  have hwith := saveRouteToFile_with_fragment env routeItem byidData f2 d.info htr
  have hset : mapGet (run env c ([s1] ++ between ++ [s2])).currentRouteSchedule
      (JsKey.str id) = some f2 := by
    rw [run_append, run_cons, onResponse_schedule env _ s2 id f2 h2]
    exact mapGet_mapSet_self _ _ _
  have hkeep : mapGet (run env c ([s1] ++ between ++ [s2] ++ after)).currentRouteSchedule
      (JsKey.str id) = some f2 := by
    rw [run_append, run_keeps env id after _ hafter]
    exact hset
  have hlast : run env c ([s1] ++ between ++ [s2] ++ after ++ [d]) =
      onResponse env (run env c ([s1] ++ between ++ [s2] ++ after)) d := by
    rw [run_append]
    rfl
  refine ⟨?_, hset, ?_, hwith.1, hwith.2, ?_⟩
  · rw [run_cons, onResponse_schedule env _ s1 id f1 h1]
    exact mapGet_mapSet_self _ _ _
  · rw [hlast, onResponse_detail env _ d routeItem byidData hd, hid, hkeep]
  · rw [hlast, onResponse_detail env _ d routeItem byidData hd, hid]
    exact mapGet_mapDelete_self _ _

/-- Claim C2, at route id 77: a fragment of 10 minutes is overwritten by a
fragment of 15 minutes, and the detail event is persisted with the latter. -/
theorem second_schedule_overwrites_witness :
    (run exampleEnv (Collector.init JsString)
        ([exampleSchedule "77" 10 3600 61200] ++ [exampleDetail "5" "3"] ++
          [exampleSchedule "77" 15 7200 64800] ++ [exampleSchedule "5" 20 0 3600] ++
          [exampleDetail "77" "12"])).saved.map
      (fun call => (call.additional_info.interval, call.additional_info.hours)) =
      [(none, none), (some "каждые 15 минут".toList, some "07:00–23:00".toList)] ∧
    (saveRouteToFile exampleEnv (exampleRoute "77" "12")
        { items := some [exampleRoute "77" "12"] }
        (some { interval := "каждые 15 минут".toList, hours := "07:00–23:00".toList })
        (exampleDetail "77" "12").info).additional_info.interval =
      some "каждые 15 минут".toList :=
  ⟨by decide,
   (second_schedule_overwrites exampleEnv (Collector.init JsString)
      (exampleSchedule "77" 10 3600 61200) (exampleSchedule "77" 15 7200 64800)
      (exampleDetail "77" "12") [exampleDetail "5" "3"] [exampleSchedule "5" 20 0 3600]
      "77".toList
      { interval := "каждые 10 минут".toList, hours := "06:00–22:00".toList }
      { interval := "каждые 15 минут".toList, hours := "07:00–23:00".toList }
      (exampleRoute "77" "12") { items := some [exampleRoute "77" "12"] }
      (by decide) (by decide) (by decide) (by decide) (by decide)).2.2.2.1⟩

/-- Claim C3, as stated, fails: two detail events for route id 77 are both
persisted and both logged. -/
theorem persisted_once_counterexample :
    (run exampleEnv (Collector.init JsString)
        [exampleDetail "77" "12", exampleDetail "77" "12"]).saved.map
      (fun call => call.routeItem.id) = [JsKey.str "77".toList, JsKey.str "77".toList] ∧
    (run exampleEnv (Collector.init JsString)
        [exampleDetail "77" "12", exampleDetail "77" "12"]).routeDetails.map
      (fun entry => entry.id) = [JsKey.str "77".toList, JsKey.str "77".toList] := by
  constructor <;> decide

/-- Claim C3, amended. For every sequence of events, `saveRouteToFile` is
invoked and `routeDetails` is appended to exactly once for each detail event
whose first item is a route, in the order of the events, whether or not the
route id was persisted before; other events neither write nor log. -/
theorem persisted_once_per_detail_event {ν : Type} (env : Env ν) (events : List Response)
    (c : Collector ν) :
    (run env c events).saved.map (fun call => (call.routeItem, call.fullByidData)) =
      c.saved.map (fun call => (call.routeItem, call.fullByidData)) ++
        events.filterMap detailItem ∧
    (run env c events).routeDetails.map (fun entry => entry.routeData) =
      c.routeDetails.map (fun entry => entry.routeData) ++
        (events.filterMap detailItem).map (fun p => p.1) := by
  induction events generalizing c with
  | nil => simp [run]
  | cons e es ih =>
    rw [run_cons]
    obtain ⟨ih1, ih2⟩ := ih (onResponse env c e)
    rw [ih1, ih2]
    cases hdi : detailItem e with
    | some p =>
      obtain ⟨it, dc⟩ := p
      rw [onResponse_detail env c e it dc hdi, List.filterMap_cons_some hdi]
      simp [saveRouteToFile]
    | none =>
      rw [List.filterMap_cons_none hdi]
      cases hse : scheduleEntry env.tz e with
      | some p =>
        obtain ⟨rid, f⟩ := p
        rw [onResponse_schedule env c e rid f hse]
        exact ⟨rfl, rfl⟩
      | none =>
        rw [onResponse_other env c e hdi hse]
        exact ⟨rfl, rfl⟩

/-! ## Geometry -/

theorem immersionFeatures_length_le {ν : Type} (N : JsNumeric ν) (route : RouteItem)
    (direction : Direction) (imm : Immersion) :
    (immersionFeatures N route direction imm).length ≤ 1 := by
  unfold immersionFeatures
  split
  · split
    · simp only []
      split <;> simp
    · simp
  · simp

/-- Claim C5. In a route document whose first item has a direction `dir`
with a geometry segment `imm`, replacing the selection string of `imm` by any
string `s` makes the conversion return (it does not throw) the features of
the directions before, of the platforms of `dir` and of its earlier segments,
then what the replaced segment yields (at most one feature), then the
features of the later segments and directions: every feature derived from
the other platforms and segments is present, unchanged and in the same
order, as in the conversion of the original document. -/
theorem convert_other_features_kept {ν : Type} (N : JsNumeric ν) (route : RouteItem)
    (rest : List RouteItem) (ds₁ ds₂ : List Direction) (dir : Direction)
    (im₁ im₂ : List Immersion) (imm : Immersion) (s : JsString)
    (hdirs : route.directions = some (ds₁ ++ dir :: ds₂))
    (himm : dir.immersion = some (im₁ ++ imm :: im₂)) :
    convert2GisToGeoJSON N { items := some (route :: rest) } =
      some ((ds₁.flatMap (directionFeatures N route) ++
              (dir.platforms.getD []).flatMap (platformFeatures N dir) ++
              im₁.flatMap (immersionFeatures N route dir)) ++
            immersionFeatures N route dir imm ++
            (im₂.flatMap (immersionFeatures N route dir) ++
              ds₂.flatMap (directionFeatures N route))) ∧
    convert2GisToGeoJSON N
        { items := some
            ({ route with
                directions := some
                  (ds₁ ++
                    { dir with immersion := some (im₁ ++ { selection := some s } :: im₂) } ::
                    ds₂) } :: rest) } =
      some ((ds₁.flatMap (directionFeatures N route) ++
              (dir.platforms.getD []).flatMap (platformFeatures N dir) ++
              im₁.flatMap (immersionFeatures N route dir)) ++
            immersionFeatures N route dir { selection := some s } ++
            (im₂.flatMap (immersionFeatures N route dir) ++
              ds₂.flatMap (directionFeatures N route))) ∧
    (immersionFeatures N route dir imm).length ≤ 1 ∧
    (immersionFeatures N route dir { selection := some s }).length ≤ 1 := by
  refine ⟨?_, ?_, immersionFeatures_length_le N route dir imm,
    immersionFeatures_length_le N route dir _⟩
  · unfold convert2GisToGeoJSON
    simp only [hdirs, Option.getD_some, List.flatMap_append, List.flatMap_cons]
    congr 1
    conv_lhs => rw [directionFeatures]
    simp only [himm, Option.getD_some, List.flatMap_append, List.flatMap_cons,
      List.append_assoc]
  · unfold convert2GisToGeoJSON
    simp only [Option.getD_some, List.flatMap_append, List.flatMap_cons]
    congr 1
    conv_lhs =>
      arg 2
      arg 1
      rw [directionFeatures]
    simp only [Option.getD_some, List.flatMap_append, List.flatMap_cons, List.append_assoc]
    rfl

/-- Claim C5, at a route with one stop and two segments: with the first
segment replaced by a string that is no line string, the stop and the second
segment are converted as before. -/
theorem convert_other_features_kept_witness :
    convert2GisToGeoJSON textNumeric
        { items := some [exampleGeoRoute ["LINESTRING 1;2", "LINESTRING(5 6)"]] } =
      some
        [Feature.stop "66.9".toList "39.6".toList (some "Stop".toList) (some "1".toList)
            "Туда".toList,
         Feature.route [(some "5".toList, some "6".toList)] "12 — маршрут".toList
            "Туда".toList] :=
  (convert_other_features_kept textNumeric
      (exampleGeoRoute ["LINESTRING(1 2,3 4)", "LINESTRING(5 6)"]) []
      [] []
      { type := some "forward".toList,
        platforms := some
          [{ name := some "Stop".toList, station_id := some "1".toList,
             centroid := some "POINT(66.9 39.6)".toList }],
        immersion := some
          [{ selection := some "LINESTRING(1 2,3 4)".toList },
           { selection := some "LINESTRING(5 6)".toList }] }
      [] [{ selection := some "LINESTRING(5 6)".toList }]
      { selection := some "LINESTRING(1 2,3 4)".toList } "LINESTRING 1;2".toList rfl rfl).2.1

/-- Claim C6 fails on the code: for the malformed bodies `abc` (non-numeric),
`5` (a single number) and `1 2,,3 4` (an empty pair), `parseWKT` returns a
non-empty sequence whose pairs lack the second coordinate, whatever `Number`
makes of the text, and `convert2GisToGeoJSON` emits a line feature with
such a pair. -/
theorem parseWKT_malformed_not_empty :
    (∀ N : JsNumeric JsString, parseWKT N "LINESTRING(abc)".toList =
        [(some (N.Number "abc".toList), none)]) ∧
    (∀ N : JsNumeric JsString, parseWKT N "LINESTRING(5)".toList =
        [(some (N.Number "5".toList), none)]) ∧
    (∀ N : JsNumeric JsString, parseWKT N "LINESTRING(1 2,,3 4)".toList =
        [(some (N.Number "1".toList), some (N.Number "2".toList)),
         (some (N.Number []), none),
         (some (N.Number "3".toList), some (N.Number "4".toList))]) ∧
    convert2GisToGeoJSON textNumeric { items := some [exampleGeoRoute ["LINESTRING(abc)"]] } =
      some
        [Feature.stop "66.9".toList "39.6".toList (some "Stop".toList) (some "1".toList)
            "Туда".toList,
         Feature.route [(some "abc".toList, none)] "12 — маршрут".toList "Туда".toList] := by
  refine ⟨fun N => ?_, fun N => ?_, fun N => ?_, by decide⟩
  · have h : matchLineString "LINESTRING(abc)".toList = some "abc".toList := by decide
    have h2 : splitChar ',' "abc".toList = ["abc".toList] := by decide
    have h3 : splitChar ' ' (trim "abc".toList) = ["abc".toList] := by decide
    simp only [parseWKT, h, h2, List.map_cons, List.map_nil, h3, List.head?_cons,
      List.tail_cons, List.head?_nil]
  · have h : matchLineString "LINESTRING(5)".toList = some "5".toList := by decide
    have h2 : splitChar ',' "5".toList = ["5".toList] := by decide
    have h3 : splitChar ' ' (trim "5".toList) = ["5".toList] := by decide
    simp only [parseWKT, h, h2, List.map_cons, List.map_nil, h3, List.head?_cons,
      List.tail_cons, List.head?_nil]
  · have h : matchLineString "LINESTRING(1 2,,3 4)".toList = some "1 2,,3 4".toList := by
      decide
    have h2 : splitChar ',' "1 2,,3 4".toList = ["1 2".toList, [], "3 4".toList] := by decide
    have h3 : splitChar ' ' (trim "1 2".toList) = ["1".toList, "2".toList] := by decide
    have h4 : splitChar ' ' (trim []) = [[]] := by decide
    have h5 : splitChar ' ' (trim "3 4".toList) = ["3".toList, "4".toList] := by decide
    simp only [parseWKT, h, h2, List.map_cons, List.map_nil, h3, h4, h5, List.head?_cons,
      List.tail_cons, List.head?_nil]

/-! ## Persistence -/

theorem splitChar_of_not_mem (sep : Char) (s : JsString) (h : sep ∉ s) :
    splitChar sep s = [s] := by
  induction s with
  | nil => rfl
  | cons c cs ih =>
    have hc : c ≠ sep := fun e => h (by rw [e]; exact List.mem_cons_self _ _)
    have hcs : sep ∉ cs := fun e => h (List.mem_cons_of_mem _ e)
    unfold splitChar
    rw [if_neg hc, ih hcs]

/-- Joining a single ordinary segment onto a directory appends it. -/
theorem pathJoin_segment (base : Path) (seg : JsString) (hsep : '/' ∉ seg)
    (hlen : 2 < seg.length) : pathJoin base seg = base ++ [seg] := by
  unfold pathJoin
  rw [splitChar_of_not_mem '/' seg hsep]
  have h0 : seg ≠ [] := by
    intro e; rw [e] at hlen; simp at hlen
  have h1 : seg ≠ ".".toList := by
    intro e; rw [e] at hlen; revert hlen; decide
  have h2 : seg ≠ "..".toList := by
    intro e; rw [e] at hlen; revert hlen; decide
  simp only [List.foldl_cons, List.foldl_nil, pathStep, h0, h1, h2, or_self, if_false]

/-- Where `pat` occurs in `s`, `replaceFirst` cuts `s` around an occurrence
and puts `rep` in its place. -/
theorem replaceFirst_of_infix (pat rep s : JsString) (hpat : pat ≠ []) (h : pat <:+: s) :
    ∃ pre post, s = pre ++ pat ++ post ∧ replaceFirst pat rep s = pre ++ rep ++ post := by
  induction s with
  | nil =>
    obtain ⟨a, b, hab⟩ := h
    have : pat = [] := by
      have hl := congrArg List.length hab
      simp only [List.length_append, List.length_nil] at hl
      exact List.length_eq_zero.1 (by omega)
    exact absurd this hpat
  | cons c cs ih =>
    unfold replaceFirst
    by_cases hp : pat.isPrefixOf (c :: cs) = true
    · rw [if_pos hp]
      have hpre : pat <+: c :: cs := List.isPrefixOf_iff_prefix.1 hp
      refine ⟨[], (c :: cs).drop pat.length, ?_, by simp⟩
      rw [List.nil_append]
      exact (List.prefix_iff_eq_append.1 hpre).symm
    · rw [if_neg hp]
      have hinf : pat <:+: cs := by
        rcases List.infix_cons_iff.1 h with h' | h'
        · exact absurd (List.isPrefixOf_iff_prefix.2 h') hp
        · exact h'
      obtain ⟨pre, post, hs, hr⟩ := ih hinf
      refine ⟨c :: pre, post, by rw [hs]; rfl, by rw [hr]; rfl⟩

theorem json_not_prefix_short (t : JsString) (ht : 0 < t.length) (ht4 : t.length < 5) :
    ¬ ".json".toList <+: t ++ ".json".toList := by
  have hj : ".json".toList = ['.', 'j', 's', 'o', 'n'] := rfl
  rw [hj]
  rcases t with _ | ⟨a, _ | ⟨b, _ | ⟨c, _ | ⟨d, _ | ⟨e, t⟩⟩⟩⟩⟩
  · simp at ht
  · simp [List.cons_prefix_cons]
  · simp [List.cons_prefix_cons]
  · simp [List.cons_prefix_cons]
  · simp [List.cons_prefix_cons]
  · simp at ht4
    omega

/-- A name in which `.json` does not occur: the first `.json` of the file
name is its extension. -/
theorem replaceFirst_extension (t : JsString) (h : ¬ ".json".toList <:+: t) :
    replaceFirst ".json".toList ".geojson".toList (t ++ ".json".toList) =
      t ++ ".geojson".toList := by
  induction t with
  | nil => decide
  | cons c cs ih =>
    have hcs : ¬ ".json".toList <:+: cs := fun e => h (List.infix_cons e)
    have hnp : ¬ (".json".toList).isPrefixOf (c :: (cs ++ ".json".toList)) = true := by
      intro hp
      have hpre : ".json".toList <+: (c :: cs) ++ ".json".toList :=
        List.isPrefixOf_iff_prefix.1 hp
      by_cases hlen : (c :: cs).length < 5
      · exact json_not_prefix_short (c :: cs) (by simp) hlen hpre
      · have : ".json".toList <+: c :: cs :=
          List.prefix_of_prefix_length_le hpre (List.prefix_append _ _)
            (by
              have h5 : (".json".toList).length = 5 := rfl
              omega)
        exact h this.isInfix
    show replaceFirst ".json".toList ".geojson".toList (c :: (cs ++ ".json".toList)) = _
    unfold replaceFirst
    rw [if_neg hnp, ih hcs]
    rfl

/-- Claim C10, as stated, fails: the route name goes into the file name
as it is. For the name `7/A` the file name contains a separator and the
document is written one directory below `routes/samarkand`; for the name
`../12` it is written to `routes/12.json`, outside of `routes/samarkand`. -/
theorem fileName_counterexample :
    '/' ∈ getFileName (exampleRoute "77" "7/A") ∧
    (saveRouteToFile exampleEnv (exampleRoute "77" "7/A")
        { items := some [exampleRoute "77" "7/A"] } none
        { interval := none, hours := none }).jsonPath =
      ["app".toList, "routes".toList, "samarkand".toList, "7".toList, "A.json".toList] ∧
    (saveRouteToFile exampleEnv (exampleRoute "77" "../12")
        { items := some [exampleRoute "77" "../12"] } none
        { interval := none, hours := none }).jsonPath =
      ["app".toList, "routes".toList, "12.json".toList] ∧
    (saveRouteToFile exampleEnv (exampleRoute "77" "../12")
        { items := some [exampleRoute "77" "../12"] } none
        { interval := none, hours := none }).geoJsonPath =
      ["app".toList, "routes".toList, "12.geojson".toList] ∧
    routesDir exampleEnv.dirname exampleEnv.city =
      ["app".toList, "routes".toList, "samarkand".toList] := by
  refine ⟨?_, ?_, ?_, ?_, ?_⟩ <;> decide

/-- Claim C10, amended. For every route item whose name (or `unknown`, when it
has none) contains no `/`: the file name is that name followed by `.json` and
contains no `/`; the document is written directly under the city directory
under that file name; the feature collection is written directly under the
city directory, under a name without `/`, which is the route name followed
by `.geojson` when `.json` does not occur in the route name. -/
theorem artifacts_in_city_directory {ν : Type} (env : Env ν) (routeItem : RouteItem)
    (byidData : ByidData) (scheduleData : Option ScheduleFragment) (info : PageInfo)
    (hname : '/' ∉ routeName routeItem) :
    '/' ∉ getFileName routeItem ∧
    (saveRouteToFile env routeItem byidData scheduleData info).jsonPath =
      routesDir env.dirname env.city ++ [routeName routeItem ++ ".json".toList] ∧
    (∃ geoName, '/' ∉ geoName ∧
      (saveRouteToFile env routeItem byidData scheduleData info).geoJsonPath =
        routesDir env.dirname env.city ++ [geoName]) ∧
    (¬ ".json".toList <:+: routeName routeItem →
      (saveRouteToFile env routeItem byidData scheduleData info).geoJsonPath =
        routesDir env.dirname env.city ++ [routeName routeItem ++ ".geojson".toList]) := by
  have hj : '/' ∉ ".json".toList := by decide
  have hg : '/' ∉ ".geojson".toList := by decide
  have hlj : (".json".toList).length = 5 := rfl
  have hlg : (".geojson".toList).length = 8 := rfl
  have hfile : '/' ∉ getFileName routeItem := by
    unfold getFileName
    rw [List.mem_append]
    rintro (h | h)
    · exact hname h
    · exact hj h
  have hflen : 2 < (getFileName routeItem).length := by
    unfold getFileName
    rw [List.length_append, hlj]
    omega
  obtain ⟨pre, post, hsplit, hrep⟩ :=
    replaceFirst_of_infix ".json".toList ".geojson".toList (getFileName routeItem)
      (by decide) ⟨routeName routeItem, [], by simp [getFileName]⟩
  have hgeo : '/' ∉ replaceFirst ".json".toList ".geojson".toList (getFileName routeItem) := by
    rw [hrep]
    rw [hsplit] at hfile
    simp only [List.mem_append, not_or] at hfile ⊢
    exact ⟨⟨hfile.1.1, hg⟩, hfile.2⟩
  have hglen : 2 <
      (replaceFirst ".json".toList ".geojson".toList (getFileName routeItem)).length := by
    rw [hrep]
    simp only [List.length_append, hlg]
    omega
  have hgpath : (saveRouteToFile env routeItem byidData scheduleData info).geoJsonPath =
      routesDir env.dirname env.city ++
        [replaceFirst ".json".toList ".geojson".toList (getFileName routeItem)] :=
    pathJoin_segment _ _ hgeo hglen
  refine ⟨hfile, pathJoin_segment _ _ hfile hflen, ⟨_, hgeo, hgpath⟩, ?_⟩
  intro hno
  rw [hgpath]
  unfold getFileName
  rw [replaceFirst_extension _ hno]

/-- Claim C10, amended, at the route named `12` in the city `samarkand`. -/
theorem artifacts_in_city_directory_witness :
    '/' ∉ routeName (exampleRoute "77" "12") ∧
    (saveRouteToFile exampleEnv (exampleRoute "77" "12")
        { items := some [exampleRoute "77" "12"] } none
        { interval := none, hours := none }).jsonPath =
      ["app".toList, "routes".toList, "samarkand".toList, "12.json".toList] :=
  ⟨by decide,
   (artifacts_in_city_directory exampleEnv (exampleRoute "77" "12")
      { items := some [exampleRoute "77" "12"] } none
      { interval := none, hours := none } (by decide)).2.1⟩

/-! ## Line strings -/

theorem splitChar_append_sep (sep : Char) (a rest : JsString) (h : sep ∉ a) :
    splitChar sep (a ++ (sep :: rest)) = a :: splitChar sep rest := by
  induction a with
  | nil =>
    show splitChar sep (sep :: rest) = _
    simp only [splitChar, if_true]
  | cons c cs ih =>
    have hc : c ≠ sep := fun e => h (by rw [e]; exact List.mem_cons_self _ _)
    have hcs : sep ∉ cs := fun e => h (List.mem_cons_of_mem _ e)
    show splitChar sep (c :: (cs ++ (sep :: rest))) = _
    simp only [splitChar, if_neg hc, ih hcs]

theorem splitChar_joinComma (ts : List JsString) (hne : ts ≠ [])
    (h : ∀ t, t ∈ ts → ',' ∉ t) : splitChar ',' (joinComma ts) = ts := by
  induction ts with
  | nil => exact absurd rfl hne
  | cons t us ih =>
    cases us with
    | nil =>
      show splitChar ',' t = [t]
      exact splitChar_of_not_mem ',' t (h t (List.mem_cons_self _ _))
    | cons u us =>
      show splitChar ',' (t ++ (',' :: joinComma (u :: us))) = _
      rw [splitChar_append_sep ',' t _ (h t (List.mem_cons_self _ _)),
        ih (List.cons_ne_nil _ _) (fun x hx => h x (List.mem_cons_of_mem _ hx))]

theorem dropWhile_append_all (p : Char → Bool) (a b : JsString)
    (h : ∀ c, c ∈ a → p c = true) : (a ++ b).dropWhile p = b.dropWhile p := by
  induction a with
  | nil => rfl
  | cons c cs ih =>
    show (c :: (cs ++ b)).dropWhile p = _
    rw [List.dropWhile_cons, if_pos (h c (List.mem_cons_self _ _))]
    exact ih (fun x hx => h x (List.mem_cons_of_mem _ hx))

theorem dropWhile_head_false (p : Char → Bool) (s : JsString)
    (h : ∀ c, s.head? = some c → p c = false) : s.dropWhile p = s := by
  cases s with
  | nil => rfl
  | cons c cs =>
    rw [List.dropWhile_cons, h c rfl]
    rfl

/-- What `trim` removes: padding around a core that neither begins nor ends
with white space. -/
theorem trim_padded (before core after : JsString) (hne : core ≠ [])
    (hb : ∀ c, c ∈ before → isJsWhitespace c = true)
    (ha : ∀ c, c ∈ after → isJsWhitespace c = true)
    (hfirst : ∀ c, core.head? = some c → isJsWhitespace c = false)
    (hlast : ∀ c, core.reverse.head? = some c → isJsWhitespace c = false) :
    trim (before ++ (core ++ after)) = core := by
  unfold trim
  rw [dropWhile_append_all _ _ _ hb]
  cases core with
  | nil => exact absurd rfl hne
  | cons c cs =>
    have h1 : ((c :: cs) ++ after).dropWhile isJsWhitespace = (c :: cs) ++ after := by
      apply dropWhile_head_false
      intro x hx
      exact hfirst x hx
    rw [h1, List.reverse_append,
      dropWhile_append_all _ _ _ (fun x hx => ha x (List.mem_reverse.1 hx)),
      dropWhile_head_false _ _ hlast, List.reverse_reverse]

theorem isToken_ne_nil (t : JsString) (h : isToken t = true) : t ≠ [] := by
  intro e
  rw [e] at h
  exact absurd h (by decide)

theorem isToken_char (t : JsString) (h : isToken t = true) (c : Char) (hc : c ∈ t) :
    isJsWhitespace c = false ∧ c ≠ ',' := by
  unfold isToken at h
  simp only [Bool.and_eq_true, List.all_eq_true, Bool.not_eq_true', decide_eq_false_iff_not]
    at h
  exact h.2 c hc

theorem isInlinePadding_char (w : JsString) (h : isInlinePadding w = true) (c : Char)
    (hc : c ∈ w) : isJsWhitespace c = true ∧ isLineTerminator c = false := by
  unfold isInlinePadding at h
  simp only [List.all_eq_true, Bool.and_eq_true, Bool.not_eq_true'] at h
  exact h c hc

theorem isLineTerminator_whitespace (c : Char) (h : isLineTerminator c = true) :
    isJsWhitespace c = true := by
  unfold isJsWhitespace
  rw [h]
  simp only [Bool.or_true]

theorem not_whitespace_not_terminator (c : Char) (h : isJsWhitespace c = false) :
    isLineTerminator c = false := by
  cases ht : isLineTerminator c with
  | false => rfl
  | true => rw [isLineTerminator_whitespace c ht] at h; cases h

theorem beforeLastParen_append (body : JsString) :
    beforeLastParen (body ++ ")".toList) = some body := by
  induction body with
  | nil => decide
  | cons c cs ih =>
    show beforeLastParen (c :: (cs ++ ")".toList)) = _
    simp only [beforeLastParen, ih]

theorem takeWhile_all (p : Char → Bool) (s : JsString) (h : ∀ c, c ∈ s → p c = true) :
    s.takeWhile p = s := by
  induction s with
  | nil => rfl
  | cons c cs ih =>
    rw [List.takeWhile_cons, if_pos (h c (List.mem_cons_self _ _)),
      ih (fun x hx => h x (List.mem_cons_of_mem _ hx))]

/-- The expression `/LINESTRING\((.+)\)/` on a wrapped body of one line
captures the body. -/
theorem matchLineString_wrapped (body : JsString) (hne : body ≠ [])
    (hline : ∀ c, c ∈ body → isLineTerminator c = false) :
    matchLineString ("LINESTRING(".toList ++ (body ++ ")".toList)) = some body := by
  have hcons : "LINESTRING(".toList ++ (body ++ ")".toList) =
      'L' :: ("INESTRING(".toList ++ (body ++ ")".toList)) := rfl
  have hpre : ("LINESTRING(".toList).isPrefixOf
      ('L' :: ("INESTRING(".toList ++ (body ++ ")".toList))) = true := by
    rw [← hcons, List.isPrefixOf_iff_prefix]
    exact List.prefix_append _ _
  have hdrop : List.drop 11 ('L' :: ("INESTRING(".toList ++ (body ++ ")".toList))) =
      body ++ ")".toList := rfl
  have htake : (body ++ ")".toList).takeWhile (fun x => !isLineTerminator x) =
      body ++ ")".toList := by
    apply takeWhile_all
    intro c hc
    rcases List.mem_append.1 hc with h | h
    · rw [hline c h]; rfl
    · have : c = ')' := by simpa using h
      subst this
      decide
  rw [hcons]
  unfold matchLineString
  rw [if_pos hpre, hdrop, htake, beforeLastParen_append]
  cases body with
  | nil => exact absurd rfl hne
  | cons d ds => rfl

theorem mem_text (p : WktPair) (c : Char) (hc : c ∈ p.text) :
    c ∈ p.before ∨ c ∈ p.lon ∨ c = ' ' ∨ c ∈ p.lat ∨ c ∈ p.after := by
  unfold WktPair.text at hc
  simp only [List.mem_append, List.mem_cons] at hc
  exact hc

theorem wellFormedInline_parts (p : WktPair) (h : p.wellFormedInline = true) :
    isInlinePadding p.before = true ∧ isToken p.lon = true ∧ isToken p.lat = true ∧
      isInlinePadding p.after = true := by
  unfold WktPair.wellFormedInline at h
  simp only [Bool.and_eq_true] at h
  exact ⟨h.1.1.1, h.1.1.2, h.1.2, h.2⟩

/-- A well-formed pair holds no comma and no line terminator. -/
theorem text_chars (p : WktPair) (h : p.wellFormedInline = true) (c : Char)
    (hc : c ∈ p.text) : c ≠ ',' ∧ isLineTerminator c = false := by
  obtain ⟨hb, hlon, hlat, ha⟩ := wellFormedInline_parts p h
  rcases mem_text p c hc with h1 | h1 | h1 | h1 | h1
  · have := isInlinePadding_char _ hb c h1
    refine ⟨?_, this.2⟩
    intro e
    subst e
    exact absurd this.1 (by decide)
  · have := isToken_char _ hlon c h1
    exact ⟨this.2, not_whitespace_not_terminator c this.1⟩
  · subst h1
    exact ⟨by decide, by decide⟩
  · have := isToken_char _ hlat c h1
    exact ⟨this.2, not_whitespace_not_terminator c this.1⟩
  · have := isInlinePadding_char _ ha c h1
    refine ⟨?_, this.2⟩
    intro e
    subst e
    exact absurd this.1 (by decide)

theorem text_ne_nil (p : WktPair) : p.text ≠ [] := by
  unfold WktPair.text
  intro e
  have := congrArg List.length e
  simp only [List.length_append, List.length_cons, List.length_nil] at this
  omega

theorem joinComma_ne_nil (ts : List JsString) (hne : ts ≠ []) (h : ∀ t, t ∈ ts → t ≠ []) :
    joinComma ts ≠ [] := by
  cases ts with
  | nil => exact absurd rfl hne
  | cons t us =>
    cases us with
    | nil => exact h t (List.mem_cons_self _ _)
    | cons u us =>
      show t ++ (',' :: joinComma (u :: us)) ≠ []
      intro e
      have := congrArg List.length e
      simp only [List.length_append, List.length_cons, List.length_nil] at this
      omega

theorem mem_joinComma (ts : List JsString) (c : Char) (hc : c ∈ joinComma ts) :
    c = ',' ∨ ∃ t, t ∈ ts ∧ c ∈ t := by
  induction ts with
  | nil => cases hc
  | cons t us ih =>
    cases us with
    | nil => exact Or.inr ⟨t, List.mem_cons_self _ _, hc⟩
    | cons u us =>
      have hc' : c ∈ t ++ (',' :: joinComma (u :: us)) := hc
      rcases List.mem_append.1 hc' with h | h
      · exact Or.inr ⟨t, List.mem_cons_self _ _, h⟩
      · rcases List.mem_cons.1 h with h | h
        · exact Or.inl h
        · rcases ih h with h' | ⟨x, hx, hcx⟩
          · exact Or.inl h'
          · exact Or.inr ⟨x, List.mem_cons_of_mem _ hx, hcx⟩

/-- The body of the `map` in `parseWKT` on a well-formed pair. -/
theorem parse_pair {ν : Type} (N : JsNumeric ν) (p : WktPair)
    (h : p.wellFormedInline = true) :
    (splitChar ' ' (trim p.text)).map N.Number = [N.Number p.lon, N.Number p.lat] := by
  obtain ⟨hb, hlon, hlat, ha⟩ := wellFormedInline_parts p h
  have hsp : ∀ t, isToken t = true → ' ' ∉ t := by
    intro t ht hmem
    exact absurd (isToken_char t ht ' ' hmem).1 (by decide)
  have hcore : trim p.text = p.lon ++ (' ' :: p.lat) := by
    have htext : p.text = p.before ++ ((p.lon ++ (' ' :: p.lat)) ++ p.after) := by
      unfold WktPair.text
      simp only [List.append_assoc, List.cons_append]
    rw [htext]
    apply trim_padded
    · intro e
      have := congrArg List.length e
      simp only [List.length_append, List.length_cons, List.length_nil] at this
      omega
    · exact fun c hc => (isInlinePadding_char _ hb c hc).1
    · exact fun c hc => (isInlinePadding_char _ ha c hc).1
    · intro c hc
      cases hl : p.lon with
      | nil => exact absurd hl (isToken_ne_nil _ hlon)
      | cons a as =>
        rw [hl] at hc
        simp only [List.cons_append, List.head?_cons, Option.some.injEq] at hc
        subst hc
        exact (isToken_char _ hlon a (by rw [hl]; exact List.mem_cons_self _ _)).1
    · intro c hc
      have hrev : (p.lon ++ (' ' :: p.lat)).reverse = p.lat.reverse ++ (' ' :: p.lon.reverse) := by
        simp only [List.reverse_append, List.reverse_cons, List.append_assoc,
          List.singleton_append]
      rw [hrev] at hc
      cases hl : p.lat.reverse with
      | nil =>
        exact absurd (List.reverse_eq_nil_iff.1 hl) (isToken_ne_nil _ hlat)
      | cons a as =>
        rw [hl] at hc
        simp only [List.cons_append, List.head?_cons, Option.some.injEq] at hc
        subst hc
        have hmem : a ∈ p.lat := by
          rw [← List.mem_reverse, hl]
          exact List.mem_cons_self _ _
        exact (isToken_char _ hlat a hmem).1
  rw [hcore, splitChar_append_sep ' ' _ _ (hsp _ hlon),
    splitChar_of_not_mem ' ' _ (hsp _ hlat)]
  rfl

/-- Claim C4, as stated, fails: in `LINESTRING(1 2,` line break `3 4)` the
second pair has white space (a line feed) before it, and `parseWKT` returns
no coordinate pair at all, because the dot of the expression does not step
over a line terminator. -/
theorem parseWKT_linestring_counterexample :
    lineString [pair "1" "2", { pair "3" "4" with before := "\n".toList }] =
        "LINESTRING(1 2,\n3 4)".toList ∧
    [pair "1" "2", { pair "3" "4" with before := "\n".toList }].all WktPair.wellFormed =
        true ∧
    parseWKT textNumeric
        (lineString [pair "1" "2", { pair "3" "4" with before := "\n".toList }]) = [] := by
  refine ⟨?_, ?_, ?_⟩ <;> decide

/-- Claim C4, amended. For every `n ≥ 1` and every string
`LINESTRING(p1,...,pn)` in which each pair is two coordinate texts separated
by a single space, with optional white space other than line terminators
around it, `parseWKT` returns exactly `n` coordinate pairs, the `i`-th being
`[Number(lon_i), Number(lat_i)]`, in input order. -/
theorem parseWKT_linestring {ν : Type} (N : JsNumeric ν) (ps : List WktPair)
    (hne : ps ≠ []) (hwf : ∀ p, p ∈ ps → p.wellFormedInline = true) :
    parseWKT N (lineString ps) =
        ps.map (fun p => (some (N.Number p.lon), some (N.Number p.lat))) ∧
    (parseWKT N (lineString ps)).length = ps.length := by
  have htexts : ps.map WktPair.text ≠ [] := by
    intro e
    exact hne (List.map_eq_nil_iff.1 e)
  have hbody : joinComma (ps.map WktPair.text) ≠ [] := by
    apply joinComma_ne_nil _ htexts
    intro t ht
    obtain ⟨p, -, rfl⟩ := List.mem_map.1 ht
    exact text_ne_nil p
  have hline : ∀ c, c ∈ joinComma (ps.map WktPair.text) → isLineTerminator c = false := by
    intro c hc
    rcases mem_joinComma _ c hc with h | ⟨t, ht, hct⟩
    · subst h; decide
    · obtain ⟨p, hp, rfl⟩ := List.mem_map.1 ht
      exact (text_chars p (hwf p hp) c hct).2
  have hcomma : ∀ t, t ∈ ps.map WktPair.text → ',' ∉ t := by
    intro t ht hmem
    obtain ⟨p, hp, rfl⟩ := List.mem_map.1 ht
    exact (text_chars p (hwf p hp) ',' hmem).1 rfl
  have hmain : parseWKT N (lineString ps) =
      ps.map (fun p => (some (N.Number p.lon), some (N.Number p.lat))) := by
    unfold parseWKT lineString
    rw [matchLineString_wrapped _ hbody hline]
    simp only []
    rw [splitChar_joinComma _ htexts hcomma, List.map_map]
    apply List.map_congr_left
    intro p hp
    simp only [Function.comp_apply, parse_pair N p (hwf p hp), List.head?_cons,
      List.tail_cons]
  exact ⟨hmain, by rw [hmain, List.length_map]⟩

/-- Claim C4, amended, at `LINESTRING(66.9 39.6, 67 -40e-1 )`. -/
theorem parseWKT_linestring_witness :
    lineString [pair "66.9" "39.6",
        { pair "67" "-40e-1" with before := " ".toList, after := " ".toList }] =
      "LINESTRING(66.9 39.6, 67 -40e-1 )".toList ∧
    parseWKT textNumeric (lineString [pair "66.9" "39.6",
        { pair "67" "-40e-1" with before := " ".toList, after := " ".toList }]) =
      [(some "66.9".toList, some "39.6".toList), (some "67".toList, some "-40e-1".toList)] :=
  ⟨by decide,
   (parseWKT_linestring textNumeric [pair "66.9" "39.6",
      { pair "67" "-40e-1" with before := " ".toList, after := " ".toList }]
      (by decide) (by decide)).1⟩

/-! ## Pagination: the fallback -/

/-- The later-unvisited test in terms of the target of the link and of the
visited set before the call. -/
theorem isLaterUnvisited_iff (visitedPages : List Nat) (n : Nat) (l : PageLink) :
    isLaterUnvisited (setAdd visitedPages n) n l = true ↔
      ∃ t, pageNum l.href = some t ∧ n < t ∧ t ∉ visitedPages := by
  unfold isLaterUnvisited
  cases hp : pageNum l.href with
  | none => simp
  | some t =>
    simp only [Bool.and_eq_true, decide_eq_true_eq, Bool.not_eq_true', decide_eq_false_iff_not,
      mem_setAdd, Option.some.injEq, exists_eq_left', not_or]
    constructor
    · rintro ⟨h1, h2, -⟩
      exact ⟨h1, h2⟩
    · rintro ⟨h1, h2⟩
      exact ⟨h1, h2, by omega⟩

/-- No link found targets an unvisited page after the current one: the
`for` loop finds nothing and the result is that of the fallback `find`. -/
theorem handlePagination_fallback_eq (visitedPages : List Nat) (currentUrl : JsString)
    (pageLinks : List PageLink)
    (hno : ∀ l, l ∈ pageLinks →
      pageNum l.href = some (currentPageNumber currentUrl + 1) →
      currentPageNumber currentUrl + 1 ∈ visitedPages) :
    (handlePagination visitedPages currentUrl pageLinks).2 =
      pageLinks.find? (isLaterUnvisited
        (setAdd visitedPages (currentPageNumber currentUrl)) (currentPageNumber currentUrl)) := by
  have hfirst : pageLinks.find? (isExactNext
      (setAdd visitedPages (currentPageNumber currentUrl)) (currentPageNumber currentUrl)) =
      none := by
    rw [List.find?_eq_none]
    intro l hl hex
    unfold isExactNext at hex
    split at hex
    · rename_i t ht
      simp only [Bool.and_eq_true, decide_eq_true_eq, Bool.not_eq_true',
        decide_eq_false_iff_not, mem_setAdd, not_or] at hex
      obtain ⟨rfl, hnot, -⟩ := hex
      exact hnot (hno l hl ht)
    · cases hex
  unfold handlePagination
  simp only []
  split
  · rename_i hlen
    rw [List.length_eq_zero.1 hlen]
    rfl
  · rw [hfirst]

/-- Claim C11, as stated, fails: on page 1, with links to pages 5 and 3 found
in this order and nothing visited, no link targets page 2 and the call
selects the link to page 5, although page 3 is unvisited, later than page 1
and smaller. -/
theorem handlePagination_fallback_counterexample :
    (∀ l, l ∈ unorderedLinks → pageNum l.href ≠ some 2) ∧
    currentPageNumber "https://2gis.uz/search/x".toList = 1 ∧
    (handlePagination [] "https://2gis.uz/search/x".toList unorderedLinks).2 =
        some (link "/search/x/page/5") ∧
    pageNum (link "/search/x/page/5").href = some 5 ∧
    link "/search/x/page/3" ∈ unorderedLinks ∧
    pageNum (link "/search/x/page/3").href = some 3 := by
  refine ⟨?_, ?_, ?_, ?_, ?_, ?_⟩ <;> decide

/-- Claim C11, amended. When no link found targets an unvisited page `n + 1`,
where `n` is the current page number, `handlePagination` selects the first
link, in the order in which the links were found, whose target is unvisited
and strictly greater than `n`; it selects nothing exactly when no link has
such a target; and when the links were found in ascending order of their
targets, the target selected is the smallest such target. -/
theorem handlePagination_fallback (visitedPages : List Nat) (currentUrl : JsString)
    (pageLinks : List PageLink)
    (hno : ∀ l, l ∈ pageLinks →
      pageNum l.href = some (currentPageNumber currentUrl + 1) →
      currentPageNumber currentUrl + 1 ∈ visitedPages) :
    (∀ l, (handlePagination visitedPages currentUrl pageLinks).2 = some l →
      ∃ earlier later t, pageLinks = earlier ++ l :: later ∧ pageNum l.href = some t ∧
        currentPageNumber currentUrl < t ∧ t ∉ visitedPages ∧
        ∀ a, a ∈ earlier → ∀ u, pageNum a.href = some u →
          ¬ (currentPageNumber currentUrl < u ∧ u ∉ visitedPages)) ∧
    ((handlePagination visitedPages currentUrl pageLinks).2 = none ↔
      ∀ l, l ∈ pageLinks → ∀ t, pageNum l.href = some t →
        ¬ (currentPageNumber currentUrl < t ∧ t ∉ visitedPages)) ∧
    (pageLinks.Pairwise (fun a b => ∀ u t, pageNum a.href = some u → pageNum b.href = some t →
        u ≤ t) →
      ∀ l t, (handlePagination visitedPages currentUrl pageLinks).2 = some l →
        pageNum l.href = some t →
        ∀ l' t', l' ∈ pageLinks → pageNum l'.href = some t' →
          currentPageNumber currentUrl < t' → t' ∉ visitedPages → t ≤ t') := by
  rw [handlePagination_fallback_eq visitedPages currentUrl pageLinks hno]
  have hsel : ∀ l, pageLinks.find? (isLaterUnvisited
        (setAdd visitedPages (currentPageNumber currentUrl))
        (currentPageNumber currentUrl)) = some l →
      ∃ earlier later t, pageLinks = earlier ++ l :: later ∧ pageNum l.href = some t ∧
        currentPageNumber currentUrl < t ∧ t ∉ visitedPages ∧
        ∀ a, a ∈ earlier → ∀ u, pageNum a.href = some u →
          ¬ (currentPageNumber currentUrl < u ∧ u ∉ visitedPages) := by
    intro l hl
    obtain ⟨hp, earlier, later, hsplit, hbefore⟩ := List.find?_eq_some.1 hl
    obtain ⟨t, ht, hlt, hnv⟩ := (isLaterUnvisited_iff _ _ l).1 hp
    refine ⟨earlier, later, t, hsplit, ht, hlt, hnv, ?_⟩
    intro a ha u hu hq
    have hfalse := hbefore a ha
    have htrue := (isLaterUnvisited_iff visitedPages _ a).2 ⟨u, hu, hq.1, hq.2⟩
    rw [htrue] at hfalse
    cases hfalse
  refine ⟨hsel, ?_, ?_⟩
  · rw [List.find?_eq_none]
    constructor
    · intro h l hl t ht hq
      exact h l hl ((isLaterUnvisited_iff visitedPages _ l).2 ⟨t, ht, hq.1, hq.2⟩)
    · intro h l hl hp
      obtain ⟨t, ht, hlt, hnv⟩ := (isLaterUnvisited_iff _ _ l).1 hp
      exact h l hl t ht ⟨hlt, hnv⟩
  · intro hsorted l t hl ht l' t' hl' ht' hlt' hnv'
    obtain ⟨earlier, later, t₀, hsplit, ht₀, -, -, hbefore⟩ := hsel l hl
    rw [hsplit] at hsorted hl'
    rcases List.mem_append.1 hl' with hmem | hmem
    · exact absurd ⟨hlt', hnv'⟩ (hbefore l' hmem t' ht')
    · rcases List.mem_cons.1 hmem with heq | hmem
      · subst heq
        rw [ht] at ht'
        exact Nat.le_of_eq (Option.some.inj ht')
      · have hpw := (List.pairwise_append.1 hsorted).2.1
        exact (List.pairwise_cons.1 hpw).1 l' hmem t t' ht ht'

/-- Claim C11, amended, at the example tab on page 3, with pages 1, 2 and 3
visited: no link targets page 4, and the link to page 5 is selected. -/
theorem handlePagination_fallback_witness :
    (handlePagination [1, 2, 3] "https://2gis.uz/search/x/page/3".toList exampleLinks).2 =
        some (link "/search/x/page/5") ∧
    ∃ earlier later t, exampleLinks = earlier ++ link "/search/x/page/5" :: later ∧
      pageNum (link "/search/x/page/5").href = some t ∧
      currentPageNumber "https://2gis.uz/search/x/page/3".toList < t ∧ t ∉ [1, 2, 3] ∧
      ∀ a, a ∈ earlier → ∀ u, pageNum a.href = some u →
        ¬ (currentPageNumber "https://2gis.uz/search/x/page/3".toList < u ∧ u ∉ [1, 2, 3]) :=
  ⟨by decide,
   (handlePagination_fallback [1, 2, 3] "https://2gis.uz/search/x/page/3".toList exampleLinks
      (by decide)).1 (link "/search/x/page/5") (by decide)⟩

/-! ## The response correlator: which item, which schedule -/

/-- Claim C12, as stated, fails: a detail payload that lists a branch and
then the route with id 77 contains an item of type `route`, yet the handler
persists nothing, logs nothing and leaves the fragment pending for id 77
where it is. -/
theorem detail_first_route_counterexample :
    (∃ items, (exampleMixedDetail "77" "12").body = Body.byid { items := some items } ∧
      exampleRoute "77" "12" ∈ items ∧
      (exampleRoute "77" "12").type = some "route".toList) ∧
    (run exampleEnv (Collector.init JsString)
        [exampleSchedule "77" 10 3600 61200, exampleMixedDetail "77" "12"]).saved.length = 0 ∧
    (run exampleEnv (Collector.init JsString)
        [exampleSchedule "77" 10 3600 61200, exampleMixedDetail "77" "12"]).routeDetails = [] ∧
    (run exampleEnv (Collector.init JsString)
        [exampleSchedule "77" 10 3600 61200,
         exampleMixedDetail "77" "12"]).currentRouteSchedule =
      [("77".toList,
        { interval := "каждые 10 минут".toList, hours := "06:00–22:00".toList })] := by
  refine ⟨⟨_, rfl, by decide, by decide⟩, ?_, ?_, ?_⟩ <;> decide

/-- Claim C12, amended. For every detail-stream event (a URL containing
`byid`, status 200, a parsed payload): when the item at index 0 of
`result.items` has type `route`, the handler takes that item as the route
document, persists it with the fragment pending for its id, logs it and
removes the fragment; when there is no item at index 0 or its type is not
`route` (so also when no item at all has type `route`), the handler
persists nothing and leaves the pending-schedule map and `routeDetails`
as they are. -/
theorem detail_first_item {ν : Type} (env : Env ν) (c : Collector ν) (response : Response)
    (byidData : ByidData)
    (hurl : includes response.url "byid".toList = true) (hstatus : response.status = 200)
    (hbody : response.body = Body.byid byidData) :
    (∀ routeItem rest, byidData.items = some (routeItem :: rest) →
      routeItem.type = some "route".toList →
      onResponse env c response =
        { currentRouteSchedule := mapDelete c.currentRouteSchedule routeItem.id
          routeDetails := c.routeDetails ++
            [{ id := routeItem.id, url := response.url, status := response.status,
               routeData := routeItem, fileName := getFileName routeItem,
               timestamp := response.now }]
          saved := c.saved ++
            [saveRouteToFile env routeItem byidData
              (mapGet c.currentRouteSchedule routeItem.id) response.info] }) ∧
    ((∀ routeItem rest, byidData.items = some (routeItem :: rest) →
        routeItem.type ≠ some "route".toList) →
      onResponse env c response = c) ∧
    ((∀ items routeItem, byidData.items = some items → routeItem ∈ items →
        routeItem.type ≠ some "route".toList) →
      onResponse env c response = c) := by
  have hguard : (includes response.url "byid".toList && decide (response.status = 200)) =
      true := by
    rw [hurl, hstatus]
    rfl
  have hfirst : ∀ routeItem rest, byidData.items = some (routeItem :: rest) →
      routeItem.type = some "route".toList →
      detailItem response = some (routeItem, byidData) := by
    intro routeItem rest hitems htype
    unfold detailItem
    rw [if_pos hguard, hbody]
    simp only [hitems, htype, if_true]
  have hnone : (∀ routeItem rest, byidData.items = some (routeItem :: rest) →
      routeItem.type ≠ some "route".toList) → onResponse env c response = c := by
    intro hno
    apply onResponse_other
    · unfold detailItem
      rw [if_pos hguard, hbody]
      simp only []
      split
      · rename_i routeItem rest hitems
        rw [if_neg (hno routeItem rest hitems)]
      · rfl
    · unfold scheduleEntry
      rw [if_pos hguard]
  refine ⟨?_, hnone, ?_⟩
  · intro routeItem rest hitems htype
    exact onResponse_detail env c response routeItem byidData
      (hfirst routeItem rest hitems htype)
  · intro hno
    apply hnone
    intro routeItem rest hitems
    exact hno _ routeItem hitems (List.mem_cons_self _ _)

/-- Claim C12, amended, at the detail event of route 77 after its schedule
event: the route item at index 0 is persisted with the pending fragment. -/
theorem detail_first_item_witness :
    onResponse exampleEnv
        (run exampleEnv (Collector.init JsString) [exampleSchedule "77" 10 3600 61200])
        (exampleDetail "77" "12") =
      { currentRouteSchedule :=
          mapDelete (run exampleEnv (Collector.init JsString)
            [exampleSchedule "77" 10 3600 61200]).currentRouteSchedule
            (exampleRoute "77" "12").id
        routeDetails :=
          (run exampleEnv (Collector.init JsString)
            [exampleSchedule "77" 10 3600 61200]).routeDetails ++
          [{ id := (exampleRoute "77" "12").id, url := (exampleDetail "77" "12").url,
             status := (exampleDetail "77" "12").status, routeData := exampleRoute "77" "12",
             fileName := getFileName (exampleRoute "77" "12"),
             timestamp := (exampleDetail "77" "12").now }]
        saved :=
          (run exampleEnv (Collector.init JsString)
            [exampleSchedule "77" 10 3600 61200]).saved ++
          [saveRouteToFile exampleEnv (exampleRoute "77" "12")
            { items := some [exampleRoute "77" "12"] }
            (mapGet (run exampleEnv (Collector.init JsString)
              [exampleSchedule "77" 10 3600 61200]).currentRouteSchedule
              (exampleRoute "77" "12").id)
            (exampleDetail "77" "12").info] } :=
  (detail_first_item exampleEnv
      (run exampleEnv (Collector.init JsString) [exampleSchedule "77" 10 3600 61200])
      (exampleDetail "77" "12") { items := some [exampleRoute "77" "12"] }
      (by decide) (by decide) rfl).1 (exampleRoute "77" "12") [] rfl (by decide)

/-- The three passes of the handler over `responses` (filter, map, filter)
end on the schedule at index 0 of the first response that leads with an
interval trip. -/
theorem schedules_head (responses : List ScheduleResponse) :
    (((responses.filter fun response =>
          decide (response.status = some "ok".toList) &&
          decide ((response.schedules.getD []).length > 0)).filterMap
        fun response => (response.schedules.getD []).head?).filter isIntervalTrip).head? =
      (responses.find? leadsWithIntervalTrip).bind
        fun response => (response.schedules.getD []).head? := by
  induction responses with
  | nil => rfl
  | cons r rs ih =>
    by_cases hst : r.status = some "ok".toList
    · cases hs : r.schedules with
      | none =>
        simp only [List.filter_cons, hst, hs, decide_True, Option.getD_none, List.length_nil,
          gt_iff_lt, Nat.lt_irrefl, decide_False, Bool.and_false, Bool.false_eq_true, if_false,
          List.find?_cons, leadsWithIntervalTrip]
        exact ih
      | some es =>
        cases es with
        | nil =>
          simp only [List.filter_cons, hst, hs, decide_True, Option.getD_some, List.length_nil,
            gt_iff_lt, Nat.lt_irrefl, decide_False, Bool.and_false, Bool.false_eq_true,
            if_false, List.find?_cons, leadsWithIntervalTrip]
          exact ih
        | cons e es =>
          cases hi : isIntervalTrip e with
          | true =>
            simp only [List.filter_cons, hst, hs, decide_True, Option.getD_some,
              List.length_cons, gt_iff_lt, Nat.zero_lt_succ, Bool.and_self, if_true,
              List.filterMap_cons, List.head?_cons, hi, List.find?_cons,
              leadsWithIntervalTrip, Option.some_bind]
          | false =>
            simp only [List.filter_cons, hst, hs, decide_True, Option.getD_some,
              List.length_cons, gt_iff_lt, Nat.zero_lt_succ, Bool.and_self, if_true,
              List.filterMap_cons, List.head?_cons, hi, List.find?_cons,
              leadsWithIntervalTrip, Bool.and_false, Bool.false_eq_true, if_false]
            exact ih
    · simp only [List.filter_cons, hst, decide_False, Bool.false_and, Bool.false_eq_true,
        if_false, List.find?_cons, leadsWithIntervalTrip]
      exact ih

/-- What the second `filter` accepts. -/
theorem isIntervalTrip_parts (entry : ScheduleEntry) (h : isIntervalTrip entry = true) :
    ∃ body workHours period, entry.schedule = some body ∧
      body.type = some "interval_trip".toList ∧ body.period = some period ∧ period ≠ 0 ∧
      body.work_hours = some workHours := by
  unfold isIntervalTrip at h
  cases hs : entry.schedule with
  | none => rw [hs] at h; cases h
  | some body =>
    rw [hs] at h
    simp only [Bool.and_eq_true, decide_eq_true_eq] at h
    obtain ⟨⟨htype, hperiod⟩, hwork⟩ := h
    cases hp : body.period with
    | none => rw [hp] at hperiod; cases hperiod
    | some period =>
      rw [hp] at hperiod
      cases hw : body.work_hours with
      | none => rw [hw] at hwork; cases hwork
      | some workHours =>
        exact ⟨body, workHours, period, rfl, htype, hp, by simpa using hperiod, hw⟩

/-- The fragment the schedule branch computes, from the first response that
leads with an interval trip. -/
theorem scheduleFragment_of_leading (tz : Int) (scheduleData : ScheduleData)
    (responses : List ScheduleResponse) (response : ScheduleResponse)
    (entry : ScheduleEntry) (rest : List ScheduleEntry) (body : ScheduleBody)
    (workHours : WorkHours) (period : Nat)
    (hresponses : scheduleData.responses = some responses)
    (hfind : responses.find? leadsWithIntervalTrip = some response)
    (hschedules : response.schedules = some (entry :: rest))
    (hbody : entry.schedule = some body) (hwork : body.work_hours = some workHours)
    (hperiod : body.period = some period) :
    scheduleFragment tz scheduleData =
      some
        { interval := "каждые ".toList ++ (toString period).toList ++ " минут".toList
          hours := clockText tz workHours.start_time ++ "–".toList ++
            clockText tz workHours.finish_time } := by
  unfold scheduleFragment
  rw [hresponses]
  simp only []
  rw [schedules_head, hfind]
  simp only [Option.some_bind, hschedules, Option.getD_some, List.head?_cons, hbody, hwork,
    hperiod]

/-- No response leads with an interval trip: the schedule branch computes
no fragment. -/
theorem scheduleFragment_of_none (tz : Int) (scheduleData : ScheduleData)
    (h : ∀ responses, scheduleData.responses = some responses →
      responses.find? leadsWithIntervalTrip = none) :
    scheduleFragment tz scheduleData = none := by
  unfold scheduleFragment
  cases hr : scheduleData.responses with
  | none => rfl
  | some responses =>
    simp only []
    rw [schedules_head, h responses hr]
    rfl

/-- Claim C13, as stated, fails. A payload whose only response has status
`ok` and lists a fixed timetable and then an interval trip holds such a
schedule, yet no fragment is stored; and when a second response leads with
an interval trip of 20 minutes, the fragment is computed from that one and
not from the interval trip of 10 minutes that comes before it in the
payload. -/
theorem schedule_first_counterexample :
    matchRouteId (exampleScheduleOf "77"
        [{ status := some "ok".toList,
           schedules := some [timetableEntry, intervalEntry 10 3600 61200] }]).url =
      some "77".toList ∧
    isIntervalTrip (intervalEntry 10 3600 61200) = true ∧
    (run exampleEnv (Collector.init JsString)
        [exampleScheduleOf "77"
          [{ status := some "ok".toList,
             schedules := some [timetableEntry, intervalEntry 10 3600 61200] }]]
      ).currentRouteSchedule = [] ∧
    (run exampleEnv (Collector.init JsString)
        [exampleScheduleOf "77"
          [{ status := some "ok".toList,
             schedules := some [timetableEntry, intervalEntry 10 3600 61200] },
           { status := some "ok".toList,
             schedules := some [intervalEntry 20 7200 64800] }]]
      ).currentRouteSchedule =
      [("77".toList,
        { interval := "каждые 20 минут".toList, hours := "07:00–23:00".toList })] := by
  refine ⟨?_, ?_, ?_, ?_⟩ <;> decide

/-- Claim C13, amended. For every schedule-stream event (status 200, a URL
with the schedule path and without `byid`, a parsed payload) whose URL
contains `routes/<digits>`: the fragment stored under that route id is
computed from the schedule at index 0 of the first response, in payload
order, whose status is `ok` and whose schedule at index 0 is an interval
trip with a period and a work-hours window; a fragment is stored whenever
such a response exists, and the collector is left unchanged when none
exists. -/
theorem schedule_first_leading {ν : Type} (env : Env ν) (c : Collector ν) (response : Response)
    (scheduleData : ScheduleData) (routeId : JsString)
    (hbyid : includes response.url "byid".toList = false)
    (hurl : includes response.url "routing.api.2gis.com/ctx/search_schedule".toList = true)
    (hstatus : response.status = 200)
    (hbody : response.body = Body.schedule scheduleData)
    (hid : matchRouteId response.url = some routeId) :
    (∀ earlier later first entry rest,
      scheduleData.responses = some (earlier ++ first :: later) →
      (∀ r, r ∈ earlier → leadsWithIntervalTrip r = false) →
      first.status = some "ok".toList →
      first.schedules = some (entry :: rest) →
      isIntervalTrip entry = true →
      ∃ body workHours period, entry.schedule = some body ∧
        body.work_hours = some workHours ∧ body.period = some period ∧
        onResponse env c response =
          { c with
            currentRouteSchedule := mapSet c.currentRouteSchedule routeId
              { interval := "каждые ".toList ++ (toString period).toList ++ " минут".toList
                hours := clockText env.tz workHours.start_time ++ "–".toList ++
                  clockText env.tz workHours.finish_time } }) ∧
    ((∀ responses r, scheduleData.responses = some responses → r ∈ responses →
        leadsWithIntervalTrip r = false) →
      onResponse env c response = c) := by
  have hg1 : (includes response.url "byid".toList && decide (response.status = 200)) ≠
      true := by
    rw [hbyid]
    exact Bool.false_ne_true
  have hg2 : (includes response.url "routing.api.2gis.com/ctx/search_schedule".toList &&
      decide (response.status = 200)) = true := by
    rw [hurl, hstatus]
    rfl
  constructor
  · intro earlier later first entry rest hresponses hearlier hstatus1 hschedules hinterval
    obtain ⟨body, workHours, period, hb, -, hp, -, hw⟩ := isIntervalTrip_parts entry hinterval
    refine ⟨body, workHours, period, hb, hw, hp, ?_⟩
    have hlead : leadsWithIntervalTrip first = true := by
      unfold leadsWithIntervalTrip
      simp only [hstatus1, hschedules, hinterval, decide_True, Bool.and_self]
    have hfind : (earlier ++ first :: later).find? leadsWithIntervalTrip = some first := by
      rw [List.find?_eq_some]
      refine ⟨hlead, earlier, later, rfl, ?_⟩
      intro a ha
      rw [hearlier a ha]
      rfl
    apply onResponse_schedule
    unfold scheduleEntry
    rw [if_neg hg1, if_pos hg2, hbody]
    simp only [hid, scheduleFragment_of_leading env.tz scheduleData _ first entry rest body
      workHours period hresponses hfind hschedules hb hw hp]
  · intro hnone
    apply onResponse_other
    · unfold detailItem
      rw [if_neg hg1]
    · unfold scheduleEntry
      rw [if_neg hg1, if_pos hg2, hbody]
      have hfrag : scheduleFragment env.tz scheduleData = none := by
        apply scheduleFragment_of_none
        intro responses hr
        rw [List.find?_eq_none]
        intro r hmem
        rw [hnone responses r hr hmem]
        exact Bool.false_ne_true
      simp only [hid, hfrag]

/-- Claim C13, amended, at a payload for route 77 whose first response
failed and whose second response leads with an interval trip of 20 minutes
and lists one of 10 minutes after it. -/
theorem schedule_first_leading_witness :
    ∃ body workHours period,
      (intervalEntry 20 7200 64800).schedule = some body ∧
      body.work_hours = some workHours ∧ body.period = some period ∧
      onResponse exampleEnv (Collector.init JsString)
          (exampleScheduleOf "77"
            [{ status := some "error".toList, schedules := none },
             { status := some "ok".toList,
               schedules := some [intervalEntry 20 7200 64800, intervalEntry 10 3600 61200] }]) =
        { Collector.init JsString with
          currentRouteSchedule := mapSet (Collector.init JsString).currentRouteSchedule
            "77".toList
            { interval := "каждые ".toList ++ (toString period).toList ++ " минут".toList
              hours := clockText exampleEnv.tz workHours.start_time ++ "–".toList ++
                clockText exampleEnv.tz workHours.finish_time } } :=
  (schedule_first_leading exampleEnv (Collector.init JsString)
      (exampleScheduleOf "77"
        [{ status := some "error".toList, schedules := none },
         { status := some "ok".toList,
           schedules := some [intervalEntry 20 7200 64800, intervalEntry 10 3600 61200] }])
      { responses := some
          [{ status := some "error".toList, schedules := none },
           { status := some "ok".toList,
             schedules := some [intervalEntry 20 7200 64800, intervalEntry 10 3600 61200] }] }
      "77".toList (by decide) (by decide) (by decide) rfl (by decide)).1
    [{ status := some "error".toList, schedules := none }] []
    { status := some "ok".toList,
      schedules := some [intervalEntry 20 7200 64800, intervalEntry 10 3600 61200] }
    (intervalEntry 20 7200 64800) [intervalEntry 10 3600 61200]
    rfl (by decide) (by decide) rfl (by decide)

end RouteCollector
